import Mathlib

set_option maxRecDepth 100000

/-!
Shallow embedding of `add_files.py`, a script that registers two Swift source
files (`PermissionService.swift` and `PermissionDeniedView.swift`) in an
Xcode `project.pbxproj` manifest by splicing text at five anchors.

The manifest content is modelled as a `List Char`.  Python's `str.find`
(returning `-1` on failure and the first index otherwise), slicing with
negative indices, the substring test `in`, and the two regular-expression
shapes `A[^{}]*B[^)]*` used by the script (with `re.search`'s
leftmost-match, greedy, backtracking semantics) are modelled explicitly.
The four identifiers produced by `gen_uuid()` are parameters of the run.
-/

namespace Vivacity

/-- `listStartsWith pat s`: `pat` is a prefix of `s` (models Python
`s.startswith(pat)`, the primitive under `str.find`). -/
def listStartsWith : List Char → List Char → Bool
  | [], _ => true
  | _ :: _, [] => false
  | p :: ps, c :: cs => p == c && listStartsWith ps cs

/-- Scan of `str.find`: first index `≥ i` (counting from the start of the
original list) at which `pat` starts, scanning suffixes left to right. -/
def pyFindAux (pat : List Char) : List Char → Nat → Option Nat
  | [], i => if listStartsWith pat [] then some i else none
  | s@(_ :: rest), i => if listStartsWith pat s then some i else pyFindAux pat rest (i + 1)

/-- First index at which `pat` occurs in `s`, if any. -/
def pyFindNat (pat s : List Char) : Option Nat := pyFindAux pat s 0

/-- Python's `pat in s` substring test. -/
def containsSub (pat s : List Char) : Bool := (pyFindNat pat s).isSome

/-- Python's `s.find(pat)`: first index, or `-1` when absent. -/
def pyFind (pat s : List Char) : Int :=
  match pyFindNat pat s with
  | some n => Int.ofNat n
  | none => -1

/-- Python slice-index normalisation: a negative index counts from the end
(`s[:i]` / `s[i:]` with `i = -1` splits just before the last character). -/
def pyAt (n : Nat) (i : Int) : Nat := (if i < 0 then (n : Int) + i else i).toNat

/-- Insert `t` at position `p` of `c` (`c[:p] + t + c[p:]` for `p : Nat`). -/
def insAt (c : List Char) (p : Nat) (t : List Char) : List Char :=
  c.take p ++ t ++ c.drop p

/-- `c[:i] + t + c[i:]` for a possibly negative Python index `i`. -/
def spliceInt (c : List Char) (i : Int) (t : List Char) : List Char :=
  insAt c (pyAt c.length i) t

/-- Character class `[^{}]` of the group regexes. -/
def nonBrace (c : Char) : Bool := !(c == '\x7b' || c == '\x7d')

/-- Character class `[^)]` of the group regexes. -/
def nonParen (c : Char) : Bool := !(c == ')')

/-- Largest `k ≤ fuel` such that `B` starts at index `k` of `s`: the greedy
backtracking of `[^{}]*` before the literal `B`. -/
def lastMatchLe (B s : List Char) : Nat → Option Nat
  | 0 => if listStartsWith B s then some 0 else none
  | k + 1 =>
    if listStartsWith B (s.drop (k + 1)) then some (k + 1) else lastMatchLe B s k

/-- Match `[^{}]*B[^)]*` against a prefix of `s`; on success return the pair
(offset just after `B`, offset after the greedy `[^)]*` run) — i.e. the
start and the end of the matched child-list span. -/
def matchTail (B s : List Char) : Option (Nat × Nat) :=
  match lastMatchLe B s (s.takeWhile nonBrace).length with
  | some k =>
    some (k + B.length,
      k + B.length + ((s.drop (k + B.length)).takeWhile nonParen).length)
  | none => none

/-- Match `A[^{}]*B[^)]*` at the very start of `s`. -/
def matchAt (A B s : List Char) : Option (Nat × Nat) :=
  if listStartsWith A s then
    match matchTail B (s.drop A.length) with
    | some (a, b) => some (A.length + a, A.length + b)
    | none => none
  else none

/-- `re.search` scan: try every start position left to right. -/
def reSearchAux (A B : List Char) : List Char → Nat → Option (Nat × Nat)
  | [], i =>
    match matchAt A B [] with
    | some (a, b) => some (i + a, i + b)
    | none => none
  | s@(_ :: rest), i =>
    match matchAt A B s with
    | some (a, b) => some (i + a, i + b)
    | none => reSearchAux A B rest (i + 1)

/-- `re.search(A [^{}]* B [^)]*, s)`: span (start of the `[^)]*` run, match
end) of the leftmost match. -/
def reSearchSpan (A B s : List Char) : Option (Nat × Nat) := reSearchAux A B s 0

/-- `match.end()` of the leftmost match, as used by the script. -/
def reSearchEnd (A B s : List Char) : Option Nat :=
  (reSearchSpan A B s).map (fun pr => pr.2)

/-- `gen_uuid()`: `uuid.uuid4().hex[:24].upper()`, as a function of the raw
32-character lowercase hex digest produced by `uuid4`. -/
def gen_uuid (hexDigest : List Char) : List Char :=
  (hexDigest.take 24).map Char.toUpper

/-- The characters `uuid4().hex` draws from. -/
def lowerHexDigits : List Char := "0123456789abcdef".toList

/-- Uppercase hexadecimal digits. -/
def upperHexDigits : List Char := "0123456789ABCDEF".toList

/-- The four identifiers generated at lines 21–24 of the script. -/
structure Ids where
  perm_svc_file_ref : List Char
  perm_svc_build_file : List Char
  perm_denied_file_ref : List Char
  perm_denied_build_file : List Char

/-- Idempotency-guard marker (line 16). -/
def guardMarker : List Char := "PermissionService.swift".toList

/-- Anchor of step 1 (line 27). -/
def endFileRefMarker : List Char := "/* End PBXFileReference section */".toList

/-- Anchor of step 2 (line 36). -/
def endBuildFileMarker : List Char := "/* End PBXBuildFile section */".toList

/-- Literal head of the Services group regex (line 45). -/
def svcHead : List Char := "/* Services */ = \x7b".toList

/-- Literal head of the FileScan group regex (line 54). -/
def fsHead : List Char := "/* FileScan */ = \x7b".toList

/-- Literal head of the Sources build-phase regex (line 63). -/
def srcHead : List Char := "/* Sources */ = \x7b".toList

/-- Literal child-list opener of the two group regexes. -/
def childrenOpen : List Char := "children = (".toList

/-- Literal file-list opener of the Sources regex. -/
def filesOpen : List Char := "files = (".toList

/-- Template text of `new_file_refs` before the first interpolation. -/
def nfr_t0 : List Char := "\t\t".toList

/-- Template text of `new_file_refs` between the two interpolations. -/
def nfr_t1 : List Char :=
  " /* PermissionService.swift */ = \x7bisa = PBXFileReference; lastKnownFileType = sourcecode.swift; path = PermissionService.swift; sourceTree = \"<group>\"; \x7d;\n\t\t".toList

/-- Template text of `new_file_refs` after the second interpolation. -/
def nfr_t2 : List Char :=
  " /* PermissionDeniedView.swift */ = \x7bisa = PBXFileReference; lastKnownFileType = sourcecode.swift; path = PermissionDeniedView.swift; sourceTree = \"<group>\"; \x7d;\n".toList

/-- `new_file_refs` (lines 29–31): the two file-reference entries. -/
def new_file_refs (ids : Ids) : List Char :=
  nfr_t0 ++ ids.perm_svc_file_ref ++ nfr_t1 ++ ids.perm_denied_file_ref ++ nfr_t2

/-- Template pieces of `new_build_files` (lines 38–40). -/
def nbf_s0 : List Char := "\t\t".toList

/-- Template piece after the first build-file id, ending in `fileRef = `. -/
def nbf_s1 : List Char :=
  " /* PermissionService.swift in Sources */ = \x7bisa = PBXBuildFile; fileRef = ".toList

/-- Template piece after the first file-reference id. -/
def nbf_s2 : List Char := " /* PermissionService.swift */; \x7d;\n\t\t".toList

/-- Template piece after the second build-file id, ending in `fileRef = `. -/
def nbf_s3 : List Char :=
  " /* PermissionDeniedView.swift in Sources */ = \x7bisa = PBXBuildFile; fileRef = ".toList

/-- Template piece after the second file-reference id. -/
def nbf_s4 : List Char := " /* PermissionDeniedView.swift */; \x7d;\n".toList

/-- `new_build_files` (lines 38–40): the two build-file entries, each
referencing the same run's file-reference id through `fileRef = `. -/
def new_build_files (ids : Ids) : List Char :=
  nbf_s0 ++ ids.perm_svc_build_file ++ nbf_s1 ++ ids.perm_svc_file_ref ++ nbf_s2 ++
    ids.perm_denied_build_file ++ nbf_s3 ++ ids.perm_denied_file_ref ++ nbf_s4

/-- Child line spliced into the Services group (line 48). -/
def svc_frag (ids : Ids) : List Char :=
  "\n\t\t\t\t".toList ++ ids.perm_svc_file_ref ++ " /* PermissionService.swift */,".toList

/-- Child line spliced into the FileScan group (line 57). -/
def fs_frag (ids : Ids) : List Char :=
  "\n\t\t\t\t".toList ++ ids.perm_denied_file_ref ++ " /* PermissionDeniedView.swift */,".toList

/-- The two lines spliced into the Sources build phase (line 66). -/
def src_frag (ids : Ids) : List Char :=
  "\n\t\t\t\t".toList ++ ids.perm_svc_build_file ++
    " /* PermissionService.swift in Sources */,\n\t\t\t\t".toList ++
    ids.perm_denied_build_file ++ " /* PermissionDeniedView.swift in Sources */,".toList

/-- Step 1 (lines 27–33): splice the file-reference entries at
`content.find("/* End PBXFileReference section */")`. -/
def step1 (ids : Ids) (c : List Char) : List Char :=
  spliceInt c (pyFind endFileRefMarker c) (new_file_refs ids)

/-- Step 2 (lines 36–42): splice the build-file entries at
`content.find("/* End PBXBuildFile section */")`. -/
def step2 (ids : Ids) (c : List Char) : List Char :=
  spliceInt c (pyFind endBuildFileMarker c) (new_build_files ids)

/-- `re.search` of line 45 (Services group), match end. -/
def svcEnd (c : List Char) : Option Nat := reSearchEnd svcHead childrenOpen c

/-- `re.search` of line 54 (FileScan group), match end. -/
def fsEnd (c : List Char) : Option Nat := reSearchEnd fsHead childrenOpen c

/-- `re.search` of line 63 (Sources build phase), match end. -/
def srcEnd (c : List Char) : Option Nat := reSearchEnd srcHead filesOpen c

/-- Step 3 (lines 44–51): insert the Services child line at the match end,
or leave the content unchanged when the pattern does not match. -/
def stepServices (ids : Ids) (c : List Char) : List Char :=
  match svcEnd c with
  | some e => insAt c e (svc_frag ids)
  | none => c

/-- Step 4 (lines 53–60): insert the FileScan child line. -/
def stepFileScan (ids : Ids) (c : List Char) : List Char :=
  match fsEnd c with
  | some e => insAt c e (fs_frag ids)
  | none => c

/-- Step 5 (lines 62–70): insert the two Sources build-phase lines. -/
def stepSources (ids : Ids) (c : List Char) : List Char :=
  match srcEnd c with
  | some e => insAt c e (src_frag ids)
  | none => c

/-- Console message printed by the script. -/
def msgMissingFile : String := "Error: project.pbxproj not found"

/-- Console message printed by the script. -/
def msgAlreadyAdded : String := "Files already added"

/-- Console message printed by the script. -/
def msgAddedServices : String := "Added PermissionService.swift to Services group"

/-- Console message printed by the script. -/
def msgWarnServices : String := "WARNING: Could not find Services group"

/-- Console message printed by the script. -/
def msgAddedFileScan : String := "Added PermissionDeniedView.swift to FileScan group"

/-- Console message printed by the script. -/
def msgWarnFileScan : String := "WARNING: Could not find FileScan group"

/-- Console message printed by the script. -/
def msgAddedSources : String := "Added both files to Sources build phase"

/-- Console message printed by the script. -/
def msgWarnSources : String := "WARNING: Could not find Sources build phase"

/-- Console message printed by the script. -/
def msgUpdated : String := "Project updated successfully"

/-- Message of the Services step, chosen by the same search result. -/
def svcMsg (c : List Char) : String :=
  match svcEnd c with
  | some _ => msgAddedServices
  | none => msgWarnServices

/-- Message of the FileScan step. -/
def fsMsg (c : List Char) : String :=
  match fsEnd c with
  | some _ => msgAddedFileScan
  | none => msgWarnFileScan

/-- Message of the Sources step. -/
def srcMsg (c : List Char) : String :=
  match srcEnd c with
  | some _ => msgAddedSources
  | none => msgWarnSources

/-- Observable outcome of one process run: the content written back (if
any write happened), the printed lines in order, and the exit status. -/
structure Outcome where
  written : Option (List Char)
  output : List String
  exitCode : Nat
deriving DecidableEq

/-- One run of the script.  `file` is the content of
`Vivacity.xcodeproj/project.pbxproj`, or `none` when the file is missing;
`ids` are the four values returned by the `gen_uuid()` calls. -/
def run (ids : Ids) (file : Option (List Char)) : Outcome :=
  match file with
  | none => ⟨none, [msgMissingFile], 1⟩
  | some content =>
    if containsSub guardMarker content then ⟨none, [msgAlreadyAdded], 0⟩
    else
      let c2 := step2 ids (step1 ids content)
      let c3 := stepServices ids c2
      let c4 := stepFileScan ids c3
      ⟨some (stepSources ids c4), [svcMsg c2, fsMsg c3, srcMsg c4, msgUpdated], 0⟩

/-- Total length of the fragments a run actually inserts into `content`. -/
def insertedLen (ids : Ids) (content : List Char) : Nat :=
  let c2 := step2 ids (step1 ids content)
  let c3 := stepServices ids c2
  let c4 := stepFileScan ids c3
  (new_file_refs ids).length + (new_build_files ids).length +
    (match svcEnd c2 with | some _ => (svc_frag ids).length | none => 0) +
    (match fsEnd c3 with | some _ => (fs_frag ids).length | none => 0) +
    (match srcEnd c4 with | some _ => (src_frag ids).length | none => 0)

/-! ### Prefix and substring facts -/

theorem listStartsWith_iff {pat s : List Char} :
    listStartsWith pat s = true ↔ ∃ r, s = pat ++ r := by
  induction pat generalizing s with
  | nil =>
    simp only [listStartsWith, List.nil_append, true_iff]
    exact ⟨s, rfl⟩
  | cons p ps ih =>
    cases s with
    | nil =>
      simp only [listStartsWith, Bool.false_eq_true, false_iff, not_exists]
      intro r h
      exact List.cons_ne_nil p (ps ++ r) h.symm
    | cons c cs =>
      simp only [listStartsWith, Bool.and_eq_true, beq_iff_eq, ih, List.cons_append]
      constructor
      · rintro ⟨rfl, r, rfl⟩
        exact ⟨r, rfl⟩
      · rintro ⟨r, hr⟩
        injection hr with h1 h2
        exact ⟨h1.symm, r, h2⟩

theorem listStartsWith_refl (l : List Char) : listStartsWith l l = true :=
  listStartsWith_iff.mpr ⟨[], by simp⟩

theorem listStartsWith_append_of_left {pat a : List Char} (b : List Char)
    (h : listStartsWith pat a = true) : listStartsWith pat (a ++ b) = true := by
  obtain ⟨r, rfl⟩ := listStartsWith_iff.mp h
  exact listStartsWith_iff.mpr ⟨r ++ b, by simp⟩

theorem listStartsWith_length_le {pat s : List Char}
    (h : listStartsWith pat s = true) : pat.length ≤ s.length := by
  obtain ⟨r, rfl⟩ := listStartsWith_iff.mp h
  simp

theorem listStartsWith_of_short {pat s : List Char}
    (h : s.length < pat.length) : listStartsWith pat s = false := by
  cases hb : listStartsWith pat s
  · rfl
  · exact absurd (listStartsWith_length_le hb) (Nat.not_le_of_lt h)

theorem eq_of_listStartsWith_of_length_le {pat s : List Char}
    (h : listStartsWith pat s = true) (hl : s.length ≤ pat.length) : pat = s := by
  obtain ⟨r, rfl⟩ := listStartsWith_iff.mp h
  have hlen : r.length = 0 := by
    have := List.length_append pat r
    omega
  rw [List.length_eq_zero.mp hlen, List.append_nil]

theorem listStartsWith_append_short {pat a : List Char} (b : List Char)
    (hl : pat.length ≤ a.length) :
    listStartsWith pat (a ++ b) = listStartsWith pat a := by
  cases hb : listStartsWith pat a
  · cases hab : listStartsWith pat (a ++ b)
    · rfl
    · obtain ⟨r2, hr2⟩ := listStartsWith_iff.mp hab
      have ha : a = pat ++ r2.take (a.length - pat.length) := by
        have h1 : (a ++ b).take a.length = a := List.take_left a b
        rw [hr2, List.take_append_eq_append_take, List.take_of_length_le hl] at h1
        exact h1.symm
      rw [listStartsWith_iff.mpr ⟨_, ha⟩] at hb
      exact hb
  · obtain ⟨r, rfl⟩ := listStartsWith_iff.mp hb
    exact listStartsWith_iff.mpr ⟨r ++ b, by simp⟩

theorem listStartsWith_append_long {pat a b : List Char}
    (hl : a.length < pat.length) (h : listStartsWith pat (a ++ b) = true) :
    pat = a ++ pat.drop a.length ∧ listStartsWith (pat.drop a.length) b = true := by
  obtain ⟨r, hr⟩ := listStartsWith_iff.mp h
  have hp : pat = a ++ b.take (pat.length - a.length) := by
    have h1 : (pat ++ r).take pat.length = pat := List.take_left pat r
    rw [← hr, List.take_append_eq_append_take,
      List.take_of_length_le (Nat.le_of_lt hl)] at h1
    exact h1.symm
  have hq : pat.drop a.length = b.take (pat.length - a.length) := by
    conv_lhs => rw [hp]
    exact List.drop_left a _
  refine ⟨by rw [hq]; exact hp, ?_⟩
  rw [hq]
  exact listStartsWith_iff.mpr ⟨b.drop (pat.length - a.length), (List.take_append_drop _ b).symm⟩

theorem listStartsWith_append_headFree {pat a b : List Char}
    (hb : ∀ c, b.head? = some c → c ∉ pat) :
    listStartsWith pat (a ++ b) = listStartsWith pat a := by
  rcases le_or_lt pat.length a.length with hl | hl
  · exact listStartsWith_append_short b hl
  · rw [listStartsWith_of_short hl]
    cases hab : listStartsWith pat (a ++ b)
    · rfl
    · obtain ⟨hpa, hq⟩ := listStartsWith_append_long hl hab
      obtain ⟨r2, hr2⟩ := listStartsWith_iff.mp hq
      have hqlen : 0 < (pat.drop a.length).length := by
        rw [List.length_drop]
        omega
      obtain ⟨qh, qt, hqc⟩ := List.exists_cons_of_ne_nil (List.ne_nil_of_length_pos hqlen)
      have hhead : b.head? = some qh := by
        rw [hr2, hqc]
        rfl
      have hqh_mem : qh ∈ pat := by
        rw [hpa, hqc]
        exact List.mem_append_right a (List.mem_cons_self qh qt)
      exact absurd hqh_mem (hb qh hhead)

theorem listStartsWith_append_lastFree {pat a b : List Char} (ha : a ≠ [])
    (hlast : ∀ c, a.getLast? = some c → c ∉ pat) :
    listStartsWith pat (a ++ b) = listStartsWith pat a := by
  rcases le_or_lt pat.length a.length with hl | hl
  · exact listStartsWith_append_short b hl
  · rw [listStartsWith_of_short hl]
    cases hab : listStartsWith pat (a ++ b)
    · rfl
    · obtain ⟨hpa, _⟩ := listStartsWith_append_long hl hab
      have hmem : a.getLast ha ∈ pat := by
        rw [hpa]
        exact List.mem_append_left _ (List.getLast_mem ha)
      have hsome : a.getLast? = some (a.getLast ha) := List.getLast?_eq_getLast a ha
      exact absurd hmem (hlast _ hsome)


/-! ### Soundness of the `str.find` scan -/

theorem pyFindAux_some {pat : List Char} :
    ∀ {s : List Char} {i e : Nat}, pyFindAux pat s i = some e →
      i ≤ e ∧ e - i ≤ s.length ∧ listStartsWith pat (s.drop (e - i)) = true ∧
        ∀ q, q < e - i → listStartsWith pat (s.drop q) = false := by
  intro s
  induction s with
  | nil =>
    intro i e h
    simp only [pyFindAux] at h
    split at h
    · cases h
      refine ⟨Nat.le_refl _, by simp, ?_, fun q hq => absurd hq (by omega)⟩
      simpa using ‹listStartsWith pat [] = true›
    · cases h
  | cons x rest ih =>
    intro i e h
    simp only [pyFindAux] at h
    split at h
    · cases h
      refine ⟨Nat.le_refl _, by simp, ?_, fun q hq => absurd hq (by omega)⟩
      simpa using ‹listStartsWith pat (x :: rest) = true›
    · obtain ⟨h1, h2, h3, h4⟩ := ih h
      have hei : 1 ≤ e - i := by omega
      refine ⟨by omega, by simp; omega, ?_, ?_⟩
      · have : (x :: rest).drop (e - i) = rest.drop (e - i - 1) := by
          rw [show e - i = (e - i - 1) + 1 by omega]
          rfl
        rw [this]
        have : e - i - 1 = e - (i + 1) := by omega
        rw [this]
        exact h3
      · intro q hq
        cases q with
        | zero =>
          simpa using ‹¬listStartsWith pat (x :: rest) = true›
        | succ q2 =>
          have : (x :: rest).drop (q2 + 1) = rest.drop q2 := rfl
          rw [this]
          exact h4 q2 (by omega)

theorem pyFindNat_some {pat s : List Char} {p : Nat} (h : pyFindNat pat s = some p) :
    p ≤ s.length ∧ listStartsWith pat (s.drop p) = true ∧
      ∀ q, q < p → listStartsWith pat (s.drop q) = false := by
  obtain ⟨_, h2, h3, h4⟩ := @pyFindAux_some pat _ _ _ h
  simpa using ⟨h2, h3, h4⟩

theorem pyFindAux_none {pat : List Char} :
    ∀ {s : List Char} {i : Nat}, pyFindAux pat s i = none →
      ∀ q, listStartsWith pat (s.drop q) = false := by
  intro s
  induction s with
  | nil =>
    intro i h q
    simp only [pyFindAux] at h
    split at h
    · cases h
    · simpa using ‹¬listStartsWith pat [] = true›
  | cons x rest ih =>
    intro i h q
    simp only [pyFindAux] at h
    split at h
    · cases h
    · cases q with
      | zero =>
        simpa using ‹¬listStartsWith pat (x :: rest) = true›
      | succ q2 =>
        exact ih h q2

theorem containsSub_iff {pat s : List Char} :
    containsSub pat s = true ↔ ∃ x y, s = x ++ pat ++ y := by
  constructor
  · intro h
    rw [containsSub, Option.isSome_iff_exists] at h
    obtain ⟨p, hp⟩ := h
    obtain ⟨_, h2, _⟩ := pyFindNat_some hp
    obtain ⟨r, hr⟩ := listStartsWith_iff.mp h2
    exact ⟨s.take p, r, by rw [List.append_assoc, ← hr, List.take_append_drop]⟩
  · rintro ⟨x, y, rfl⟩
    rw [containsSub]
    cases hfind : pyFindNat pat (x ++ pat ++ y) with
    | some p => rfl
    | none =>
      have := @pyFindAux_none pat _ _ hfind x.length
      rw [List.append_assoc, List.drop_left] at this
      rw [listStartsWith_append_of_left y (listStartsWith_refl pat)] at this
      cases this

theorem containsSub_of_occ {pat s x y : List Char} (h : s = x ++ pat ++ y) :
    containsSub pat s = true :=
  containsSub_iff.mpr ⟨x, y, h⟩

/-! ### Counting occurrences -/

/-- Number of positions of `s` at which `pat` starts. -/
def occCount (pat : List Char) : List Char → Nat
  | [] => if listStartsWith pat [] then 1 else 0
  | s@(_ :: rest) => (if listStartsWith pat s then 1 else 0) + occCount pat rest

theorem occCount_cons (pat : List Char) (x : Char) (s : List Char) :
    occCount pat (x :: s) =
      (if listStartsWith pat (x :: s) then 1 else 0) + occCount pat s := rfl

theorem occCount_nil_of_ne {pat : List Char} (hp : pat ≠ []) : occCount pat [] = 0 := by
  cases pat with
  | nil => exact absurd rfl hp
  | cons p ps => rfl

theorem occCount_short {pat s : List Char} (h : s.length < pat.length) :
    occCount pat s = 0 := by
  induction s with
  | nil =>
    refine occCount_nil_of_ne fun hp => ?_
    rw [hp] at h
    exact absurd h (by simp)
  | cons x rest ih =>
    rw [occCount_cons, listStartsWith_of_short (by simpa using h)]
    have : rest.length < pat.length := by
      have := h
      simp at this
      omega
    simp [ih this]

theorem occCount_self {pat : List Char} (hp : pat ≠ []) : occCount pat pat = 1 := by
  cases pat with
  | nil => exact absurd rfl hp
  | cons p ps =>
    rw [occCount_cons, listStartsWith_refl, occCount_short (by simp)]
    simp

theorem occCount_eq_of_same_length {pat s : List Char} (hl : s.length = pat.length) :
    occCount pat s = if pat = s then 1 else 0 := by
  cases s with
  | nil =>
    have hp : pat = [] := List.length_eq_zero.mp (by simp at hl; omega)
    simp [hp, occCount, listStartsWith]
  | cons x rest =>
    rw [occCount_cons, occCount_short (by simp at hl; omega)]
    by_cases he : pat = x :: rest
    · simp [he, listStartsWith_refl]
    · have : listStartsWith pat (x :: rest) = false := by
        cases hb : listStartsWith pat (x :: rest)
        · rfl
        · exact absurd (eq_of_listStartsWith_of_length_le hb (by omega)) he
      simp [this, he]

theorem occCount_append_headFree {pat a b : List Char} (hpat : pat ≠ [])
    (hb : ∀ c, b.head? = some c → c ∉ pat) :
    occCount pat (a ++ b) = occCount pat a + occCount pat b := by
  induction a with
  | nil => simp [occCount_nil_of_ne hpat]
  | cons x a2 ih =>
    have hsw : listStartsWith pat ((x :: a2) ++ b) = listStartsWith pat (x :: a2) :=
      listStartsWith_append_headFree hb
    rw [List.cons_append] at hsw
    calc occCount pat ((x :: a2) ++ b)
        = occCount pat (x :: (a2 ++ b)) := by rw [List.cons_append]
      _ = (if listStartsWith pat (x :: (a2 ++ b)) then 1 else 0) + occCount pat (a2 ++ b) :=
          occCount_cons ..
      _ = (if listStartsWith pat (x :: a2) then 1 else 0) + (occCount pat a2 + occCount pat b) := by
          rw [hsw, ih]
      _ = occCount pat (x :: a2) + occCount pat b := by
          rw [occCount_cons]
          omega

theorem occCount_append_lastFree {pat a b : List Char} (hpat : pat ≠ []) (ha : a ≠ [])
    (hlast : ∀ c, a.getLast? = some c → c ∉ pat) :
    occCount pat (a ++ b) = occCount pat a + occCount pat b := by
  induction a with
  | nil => exact absurd rfl ha
  | cons x a2 ih =>
    have hsw : listStartsWith pat ((x :: a2) ++ b) = listStartsWith pat (x :: a2) :=
      listStartsWith_append_lastFree ha hlast
    cases a2 with
    | nil =>
      simp only [List.cons_append, List.nil_append] at hsw ⊢
      rw [occCount_cons, occCount_cons, hsw, occCount_nil_of_ne hpat]
      omega
    | cons y t =>
      have hlast2 : ∀ c, (y :: t).getLast? = some c → c ∉ pat := fun c hc =>
        hlast c (by rw [List.getLast?_cons_cons]; exact hc)
      have ih2 := ih (List.cons_ne_nil y t) hlast2
      simp only [List.cons_append] at hsw ih2 ⊢
      rw [occCount_cons pat x (y :: (t ++ b)), occCount_cons pat x (y :: t), hsw, ih2]
      omega

/-! ### Splice lemmas -/

theorem take_append_of_le_length {a rest : List Char} (p : Nat) (h : a.length ≤ p) :
    (a ++ rest).take p = a ++ rest.take (p - a.length) := by
  rw [List.take_append_eq_append_take, List.take_of_length_le h]

theorem insAt_length (c : List Char) (p : Nat) (t : List Char) :
    (insAt c p t).length = c.length + t.length := by
  simp [insAt]
  omega

/-! ### Occurrences of a marker under splicing -/

/-- `m` occurs somewhere in `s`. -/
def HasOcc (m s : List Char) : Prop := ∃ x y, s = x ++ m ++ y

/-- `m` has two disjoint occurrences in `s`. -/
def HasTwoOcc (m s : List Char) : Prop := ∃ x y z, s = x ++ m ++ y ++ m ++ z

theorem hasOcc_of_two {m s : List Char} (h : HasTwoOcc m s) : HasOcc m s := by
  obtain ⟨x, y, z, rfl⟩ := h
  exact ⟨x, y ++ m ++ z, by simp [List.append_assoc]⟩

theorem hasOcc_insAt_of_t {m s t : List Char} (p : Nat) (h : HasOcc m t) :
    HasOcc m (insAt s p t) := by
  obtain ⟨ta, tb, rfl⟩ := h
  exact ⟨s.take p ++ ta, tb ++ s.drop p, by simp [insAt, List.append_assoc]⟩

theorem hasTwoOcc_insAt_of_t {m s t : List Char} (p : Nat) (h : HasTwoOcc m t) :
    HasTwoOcc m (insAt s p t) := by
  obtain ⟨ta, tb, tc, rfl⟩ := h
  exact ⟨s.take p ++ ta, tb, tc ++ s.drop p, by simp [insAt, List.append_assoc]⟩

theorem hasOcc_insAt_of_two {m s : List Char} (h : HasTwoOcc m s) (p : Nat) (t : List Char) :
    HasOcc m (insAt s p t) := by
  obtain ⟨x, y, z, rfl⟩ := h
  rcases le_or_lt (x.length + m.length) p with hp | hp
  · have hs : x ++ m ++ y ++ m ++ z = (x ++ m) ++ (y ++ m ++ z) := by
      simp [List.append_assoc]
    have htake : (x ++ m ++ y ++ m ++ z).take p =
        (x ++ m) ++ (y ++ m ++ z).take (p - (x ++ m).length) := by
      rw [hs]
      exact take_append_of_le_length p (by simpa using hp)
    refine ⟨x, (y ++ m ++ z).take (p - (x ++ m).length) ++ t ++
      (x ++ m ++ y ++ m ++ z).drop p, ?_⟩
    rw [insAt, htake]
    simp [List.append_assoc]
  · have hs : x ++ m ++ y ++ m ++ z = (x ++ m ++ y) ++ (m ++ z) := by
      simp [List.append_assoc]
    have hdrop : (x ++ m ++ y ++ m ++ z).drop p =
        (x ++ m ++ y).drop p ++ (m ++ z) := by
      rw [hs]
      exact List.drop_append_of_le_length (by simp; omega)
    refine ⟨(x ++ m ++ y ++ m ++ z).take p ++ t ++ (x ++ m ++ y).drop p, z, ?_⟩
    rw [insAt, hdrop]
    simp [List.append_assoc]

theorem hasTwoOcc_insAt_of_two_of_occ {m s t : List Char} (h : HasTwoOcc m s)
    (ht : HasOcc m t) (p : Nat) : HasTwoOcc m (insAt s p t) := by
  obtain ⟨x, y, z, rfl⟩ := h
  obtain ⟨ta, tb, rfl⟩ := ht
  rcases le_or_lt (x.length + m.length) p with hp | hp
  · have hs : x ++ m ++ y ++ m ++ z = (x ++ m) ++ (y ++ m ++ z) := by
      simp [List.append_assoc]
    have htake : (x ++ m ++ y ++ m ++ z).take p =
        (x ++ m) ++ (y ++ m ++ z).take (p - (x ++ m).length) := by
      rw [hs]
      exact take_append_of_le_length p (by simpa using hp)
    refine ⟨x, (y ++ m ++ z).take (p - (x ++ m).length) ++ ta,
      tb ++ (x ++ m ++ y ++ m ++ z).drop p, ?_⟩
    rw [insAt, htake]
    simp [List.append_assoc]
  · have hs : x ++ m ++ y ++ m ++ z = (x ++ m ++ y) ++ (m ++ z) := by
      simp [List.append_assoc]
    have hdrop : (x ++ m ++ y ++ m ++ z).drop p =
        (x ++ m ++ y).drop p ++ (m ++ z) := by
      rw [hs]
      exact List.drop_append_of_le_length (by simp; omega)
    refine ⟨(x ++ m ++ y ++ m ++ z).take p ++ ta, tb ++ (x ++ m ++ y).drop p, z, ?_⟩
    rw [insAt, hdrop]
    simp [List.append_assoc]

/-! ### Unfolding the run -/

theorem run_none_eq (ids : Ids) : run ids none = ⟨none, [msgMissingFile], 1⟩ := rfl

theorem run_guard_eq {content : List Char} (ids : Ids)
    (h : containsSub guardMarker content = true) :
    run ids (some content) = ⟨none, [msgAlreadyAdded], 0⟩ := by
  simp [run, h]

theorem run_noguard_eq {content : List Char} (ids : Ids)
    (h : containsSub guardMarker content = false) :
    run ids (some content) =
      ⟨some (stepSources ids (stepFileScan ids (stepServices ids
          (step2 ids (step1 ids content))))),
        [svcMsg (step2 ids (step1 ids content)),
         fsMsg (stepServices ids (step2 ids (step1 ids content))),
         srcMsg (stepFileScan ids (stepServices ids (step2 ids (step1 ids content)))),
         msgUpdated], 0⟩ := by
  simp [run, h]

/-! ### The inserted fragments contain the guard marker -/

theorem nbf_hasTwoOcc (ids : Ids) : HasTwoOcc guardMarker (new_build_files ids) := by
  have h1 : nbf_s1 = " /* ".toList ++ guardMarker ++
      " in Sources */ = \x7bisa = PBXBuildFile; fileRef = ".toList := by decide
  have h2 : nbf_s2 = " /* ".toList ++ guardMarker ++ " */; \x7d;\n\t\t".toList := by
    decide
  refine ⟨nbf_s0 ++ ids.perm_svc_build_file ++ " /* ".toList,
    " in Sources */ = \x7bisa = PBXBuildFile; fileRef = ".toList ++
      ids.perm_svc_file_ref ++ " /* ".toList,
    " */; \x7d;\n\t\t".toList ++ ids.perm_denied_build_file ++ nbf_s3 ++
      ids.perm_denied_file_ref ++ nbf_s4, ?_⟩
  rw [new_build_files, h1, h2]
  simp [List.append_assoc]

theorem svc_frag_hasOcc (ids : Ids) : HasOcc guardMarker (svc_frag ids) := by
  have h1 : (" /* PermissionService.swift */,").toList =
      " /* ".toList ++ guardMarker ++ " */,".toList := by decide
  exact ⟨"\n\t\t\t\t".toList ++ ids.perm_svc_file_ref ++ " /* ".toList, " */,".toList,
    by rw [svc_frag, h1]; simp [List.append_assoc]⟩

theorem src_frag_hasOcc (ids : Ids) : HasOcc guardMarker (src_frag ids) := by
  have h1 : (" /* PermissionService.swift in Sources */,\n\t\t\t\t").toList =
      " /* ".toList ++ guardMarker ++ " in Sources */,\n\t\t\t\t".toList := by decide
  exact ⟨"\n\t\t\t\t".toList ++ ids.perm_svc_build_file ++ " /* ".toList,
    " in Sources */,\n\t\t\t\t".toList ++ ids.perm_denied_build_file ++
      " /* PermissionDeniedView.swift in Sources */,".toList,
    by rw [src_frag, h1]; simp [List.append_assoc]⟩

/-- Any content a run writes back contains the guard marker. -/
theorem written_contains_guard {ids : Ids} {content c5 : List Char}
    (h : (run ids (some content)).written = some c5) :
    containsSub guardMarker c5 = true := by
  by_cases hg : containsSub guardMarker content
  · rw [run_guard_eq ids hg] at h
    cases h
  · rw [Bool.not_eq_true] at hg
    rw [run_noguard_eq ids hg] at h
    have hc5 : c5 = stepSources ids (stepFileScan ids (stepServices ids
        (step2 ids (step1 ids content)))) := by
      cases h
      rfl
    subst hc5
    have h2 : HasTwoOcc guardMarker (step2 ids (step1 ids content)) :=
      hasTwoOcc_insAt_of_t _ (nbf_hasTwoOcc ids)
    have h3 : HasTwoOcc guardMarker (stepServices ids (step2 ids (step1 ids content))) := by
      rw [stepServices]
      cases hsvc : svcEnd (step2 ids (step1 ids content)) with
      | some e => exact hasTwoOcc_insAt_of_two_of_occ h2 (svc_frag_hasOcc ids) e
      | none => exact h2
    have h4 : HasOcc guardMarker (stepFileScan ids (stepServices ids
        (step2 ids (step1 ids content)))) := by
      rw [stepFileScan]
      cases hfs : fsEnd (stepServices ids (step2 ids (step1 ids content))) with
      | some e => exact hasOcc_insAt_of_two h3 e _
      | none => exact hasOcc_of_two h3
    have h5 : HasOcc guardMarker (stepSources ids (stepFileScan ids (stepServices ids
        (step2 ids (step1 ids content))))) := by
      rw [stepSources]
      cases hsrc : srcEnd (stepFileScan ids (stepServices ids
          (step2 ids (step1 ids content)))) with
      | some e => exact hasOcc_insAt_of_t e (src_frag_hasOcc ids)
      | none => exact h4
    obtain ⟨x, y, hxy⟩ := h5
    exact containsSub_of_occ hxy

/-! ### Claim theorems -/

/-- C2: for every manifest content in which the literal string
`PermissionService.swift` appears anywhere, the run performs no modification
and no write to the file, prints the already-added notice, and exits with
status 0. -/
theorem c2_guard_short_circuits (ids : Ids) (content : List Char)
    (h : ∃ x y, content = x ++ guardMarker ++ y) :
    run ids (some content) = ⟨none, [msgAlreadyAdded], 0⟩ :=
  run_guard_eq ids (containsSub_iff.mpr h)

/-- Witness for C2 at a concrete one-line manifest. -/
theorem c2_guard_short_circuits_witness :
    (∃ x y, ("a " ++ "PermissionService.swift" ++ " b").toList =
      x ++ guardMarker ++ y) ∧
    run ⟨[], [], [], []⟩ (some (("a " ++ "PermissionService.swift" ++ " b").toList)) =
      ⟨none, [msgAlreadyAdded], 0⟩ :=
  ⟨⟨"a ".toList, " b".toList, by decide⟩,
    c2_guard_short_circuits _ _ ⟨"a ".toList, " b".toList, by decide⟩⟩

/-- C3: applying the patcher twice in succession yields a manifest identical
after the second run to after the first: whatever the first run leaves on
disk (its written content, or the untouched original), the second run
performs zero writes, prints the already-added notice, and exits with
status 0. -/
theorem c3_second_run_noop (ids1 ids2 : Ids) (content : List Char) :
    run ids2 (some ((run ids1 (some content)).written.getD content)) =
      ⟨none, [msgAlreadyAdded], 0⟩ := by
  cases hw : (run ids1 (some content)).written with
  | none =>
    rw [Option.getD_none]
    by_cases hg : containsSub guardMarker content
    · exact run_guard_eq ids2 hg
    · rw [Bool.not_eq_true] at hg
      rw [run_noguard_eq ids1 hg] at hw
      cases hw
  | some c5 =>
    rw [Option.getD_some]
    exact run_guard_eq ids2 (written_contains_guard hw)

/-- C6: when the manifest file does not exist, the process prints the
missing-file diagnostic, exits with status 1, and writes nothing. -/
theorem c6_missing_file (ids : Ids) :
    run ids none = ⟨none, [msgMissingFile], 1⟩ := rfl

/-- C8: every identifier produced by the generator is exactly 24 characters
long and consists only of uppercase hexadecimal digits, given that
`uuid4().hex` is a 32-character string of lowercase hexadecimal digits. -/
theorem c8_gen_uuid_hex24 (hexDigest : List Char)
    (hlen : hexDigest.length = 32)
    (hmem : ∀ c ∈ hexDigest, c ∈ lowerHexDigits) :
    (gen_uuid hexDigest).length = 24 ∧
      ∀ c ∈ gen_uuid hexDigest, c ∈ upperHexDigits := by
  constructor
  · simp [gen_uuid, hlen]
  · intro c hc
    rw [gen_uuid, List.mem_map] at hc
    obtain ⟨d, hd, rfl⟩ := hc
    have hdm : d ∈ hexDigest := List.take_subset 24 hexDigest hd
    have key : ∀ e ∈ lowerHexDigits, Char.toUpper e ∈ upperHexDigits := by decide
    exact key d (hmem d hdm)

/-- Concrete digest for the C8 witness. -/
def sampleDigest : List Char := "0123456789abcdef0123456789abcdef".toList

/-- Witness for C8 at a concrete `uuid4().hex` value. -/
theorem c8_gen_uuid_hex24_witness :
    sampleDigest.length = 32 ∧ (∀ c ∈ sampleDigest, c ∈ lowerHexDigits) ∧
      (gen_uuid sampleDigest).length = 24 ∧
      ∀ c ∈ gen_uuid sampleDigest, c ∈ upperHexDigits :=
  ⟨by decide, by decide, c8_gen_uuid_hex24 sampleDigest (by decide) (by decide)⟩

/-! ### Soundness of the regex matcher -/

theorem lastMatchLe_sound {B s : List Char} :
    ∀ {k j : Nat}, lastMatchLe B s k = some j →
      j ≤ k ∧ listStartsWith B (s.drop j) = true := by
  intro k
  induction k with
  | zero =>
    intro j h
    simp only [lastMatchLe] at h
    split at h
    · cases h
      exact ⟨Nat.le_refl 0, by simpa using ‹listStartsWith B s = true›⟩
    · cases h
  | succ k2 ih =>
    intro j h
    simp only [lastMatchLe] at h
    split at h
    · cases h
      exact ⟨Nat.le_refl _, ‹listStartsWith B (s.drop (k2 + 1)) = true›⟩
    · obtain ⟨h1, h2⟩ := ih h
      exact ⟨Nat.le_succ_of_le h1, h2⟩

theorem matchTail_sound {B s : List Char} {a b : Nat} (h : matchTail B s = some (a, b)) :
    ∃ mid rn rest, s = mid ++ B ++ rn ++ rest ∧
      (∀ ch ∈ mid, nonBrace ch = true) ∧ (∀ ch ∈ rn, nonParen ch = true) ∧
      (rest = [] ∨ ∃ r2, rest = ')' :: r2) ∧
      a = mid.length + B.length ∧ b = a + rn.length := by
  rw [matchTail] at h
  cases heq : lastMatchLe B s (s.takeWhile nonBrace).length with
  | none => rw [heq] at h; cases h
  | some k =>
    rw [heq] at h
    obtain ⟨hk, hsw⟩ := lastMatchLe_sound heq
    injection h with h
    injection h with ha hb
    obtain ⟨r, hr⟩ := listStartsWith_iff.mp hsw
    have hkle : k ≤ s.length := by
      have h2 := congrArg List.length (List.takeWhile_append_dropWhile (p := nonBrace) (l := s))
      simp only [List.length_append] at h2
      omega
    have hmid : s.take k = (s.takeWhile nonBrace).take k := by
      conv_lhs => rw [← List.takeWhile_append_dropWhile (p := nonBrace) (l := s)]
      rw [List.take_append_eq_append_take, Nat.sub_eq_zero_of_le hk, List.take_zero,
        List.append_nil]
    have hrdrop : s.drop (k + B.length) = r := by
      have h1 : s.drop (k + B.length) = (s.drop k).drop B.length := by
        rw [List.drop_drop, Nat.add_comm]
      rw [h1, hr, List.drop_left]
    refine ⟨s.take k, r.takeWhile nonParen, r.dropWhile nonParen, ?_, ?_, ?_, ?_, ?_, ?_⟩
    · conv_lhs =>
        rw [← List.take_append_drop k s, hr,
          ← List.takeWhile_append_dropWhile (p := nonParen) (l := r)]
      simp [List.append_assoc]
    · intro ch hch
      rw [hmid] at hch
      exact List.mem_takeWhile_imp (List.take_subset _ _ hch)
    · intro ch hch
      exact List.mem_takeWhile_imp hch
    · cases hrest : r.dropWhile nonParen with
      | nil => exact Or.inl rfl
      | cons c0 r2 =>
        refine Or.inr ⟨r2, ?_⟩
        have hc0 : nonParen c0 = false := by
          have := List.head_dropWhile_not nonParen r
          rw [hrest] at this
          simpa using this (by simp)
        have : c0 = ')' := by
          rw [nonParen] at hc0
          simpa using hc0
        rw [this]
    · rw [← ha, List.length_take, Nat.min_eq_left hkle]
    · rw [← hb, ← ha, hrdrop]

theorem matchAt_sound {A B s : List Char} {a b : Nat} (h : matchAt A B s = some (a, b)) :
    ∃ mid rn rest, s = A ++ mid ++ B ++ rn ++ rest ∧
      (∀ ch ∈ mid, nonBrace ch = true) ∧ (∀ ch ∈ rn, nonParen ch = true) ∧
      (rest = [] ∨ ∃ r2, rest = ')' :: r2) ∧
      a = A.length + mid.length + B.length ∧ b = a + rn.length := by
  rw [matchAt] at h
  split at h
  · rename_i hsw
    cases hmt : matchTail B (s.drop A.length) with
    | none => rw [hmt] at h; cases h
    | some pr =>
      obtain ⟨a0, b0⟩ := pr
      rw [hmt] at h
      injection h with h
      injection h with ha hb
      obtain ⟨mid, rn, rest, hdec, hmid, hrn, hrest, ha0, hb0⟩ := matchTail_sound hmt
      obtain ⟨r, hr⟩ := listStartsWith_iff.mp hsw
      have hrd : s.drop A.length = r := by
        rw [hr, List.drop_left]
      refine ⟨mid, rn, rest, ?_, hmid, hrn, hrest, ?_, ?_⟩
      · rw [hr, ← hrd, hdec]
        simp [List.append_assoc]
      · omega
      · omega
  · cases h

theorem reSearchAux_sound {A B : List Char} :
    ∀ {s : List Char} {i a b : Nat}, reSearchAux A B s i = some (a, b) →
      ∃ pre mid rn rest, s = pre ++ A ++ mid ++ B ++ rn ++ rest ∧
        (∀ ch ∈ mid, nonBrace ch = true) ∧ (∀ ch ∈ rn, nonParen ch = true) ∧
        (rest = [] ∨ ∃ r2, rest = ')' :: r2) ∧
        a = i + pre.length + A.length + mid.length + B.length ∧ b = a + rn.length := by
  intro s
  induction s with
  | nil =>
    intro i a b h
    simp only [reSearchAux] at h
    cases hm : matchAt A B [] with
    | none => rw [hm] at h; cases h
    | some pr =>
      obtain ⟨a0, b0⟩ := pr
      rw [hm] at h
      injection h with h
      injection h with ha hb
      obtain ⟨mid, rn, rest, hdec, hmid, hrn, hrest, ha0, hb0⟩ := matchAt_sound hm
      exact ⟨[], mid, rn, rest, by simpa using hdec, hmid, hrn, hrest, by simp; omega,
        by omega⟩
  | cons x s0 ih =>
    intro i a b h
    simp only [reSearchAux] at h
    cases hm : matchAt A B (x :: s0) with
    | some pr =>
      obtain ⟨a0, b0⟩ := pr
      rw [hm] at h
      injection h with h
      injection h with ha hb
      obtain ⟨mid, rn, rest, hdec, hmid, hrn, hrest, ha0, hb0⟩ := matchAt_sound hm
      exact ⟨[], mid, rn, rest, by simpa using hdec, hmid, hrn, hrest, by simp; omega,
        by omega⟩
    | none =>
      rw [hm] at h
      obtain ⟨pre, mid, rn, rest, hdec, hmid, hrn, hrest, ha, hb⟩ := ih h
      refine ⟨x :: pre, mid, rn, rest, ?_, hmid, hrn, hrest, by simp; omega, by omega⟩
      simp only [List.cons_append]
      rw [hdec]

theorem reSearchEnd_sound {A B s : List Char} {e : Nat} (h : reSearchEnd A B s = some e) :
    ∃ pre mid rn rest, s = pre ++ A ++ mid ++ B ++ rn ++ rest ∧
      (∀ ch ∈ mid, nonBrace ch = true) ∧ (∀ ch ∈ rn, nonParen ch = true) ∧
      (rest = [] ∨ ∃ r2, rest = ')' :: r2) ∧
      e = (pre ++ A ++ mid ++ B ++ rn).length := by
  rw [reSearchEnd] at h
  cases hsp : reSearchSpan A B s with
  | none => rw [hsp] at h; cases h
  | some pr =>
    obtain ⟨a, b⟩ := pr
    rw [hsp] at h
    injection h with h
    subst h
    obtain ⟨pre, mid, rn, rest, hdec, hmid, hrn, hrest, ha, hb⟩ := reSearchAux_sound hsp
    refine ⟨pre, mid, rn, rest, hdec, hmid, hrn, hrest, ?_⟩
    simp only [List.length_append]
    omega

/-! ### Glue: the splice positions the steps use -/

theorem pyAt_ofNat (n p : Nat) : pyAt n (Int.ofNat p) = p := by
  have h : Int.ofNat p = (p : Int) := rfl
  simp only [pyAt, h]
  rw [if_neg (by omega : ¬ ((p : Int) < 0))]
  omega

theorem pyAt_negOne (n : Nat) : pyAt n (-1) = n - 1 := by
  simp only [pyAt, if_pos (show (-1 : Int) < 0 by norm_num)]
  omega

theorem spliceInt_found {c t : List Char} {p : Nat} (pat : List Char)
    (h : pyFindNat pat c = some p) :
    spliceInt c (pyFind pat c) t = insAt c p t := by
  simp only [spliceInt, pyFind, h, pyAt_ofNat]

theorem pyFindNat_none_of_not_contains {pat c : List Char}
    (h : containsSub pat c = false) : pyFindNat pat c = none := by
  cases hf : pyFindNat pat c with
  | none => rfl
  | some p =>
    rw [containsSub, hf] at h
    cases h

theorem spliceInt_absent {c t : List Char} (pat : List Char)
    (h : containsSub pat c = false) :
    pyFind pat c = -1 ∧ spliceInt c (pyFind pat c) t = insAt c (c.length - 1) t := by
  have hn := pyFindNat_none_of_not_contains h
  constructor
  · simp only [pyFind, hn]
  · simp only [spliceInt, pyFind, hn, pyAt_negOne]

theorem step1_eq_of_found {ids : Ids} {c : List Char} {p : Nat}
    (h : pyFindNat endFileRefMarker c = some p) :
    step1 ids c = insAt c p (new_file_refs ids) := by
  rw [step1]
  exact spliceInt_found _ h

theorem step2_eq_of_found {ids : Ids} {c : List Char} {p : Nat}
    (h : pyFindNat endBuildFileMarker c = some p) :
    step2 ids c = insAt c p (new_build_files ids) := by
  rw [step2]
  exact spliceInt_found _ h

theorem stepServices_eq_of_found {ids : Ids} {c : List Char} {e : Nat}
    (h : svcEnd c = some e) : stepServices ids c = insAt c e (svc_frag ids) := by
  rw [stepServices, h]

theorem stepFileScan_eq_of_found {ids : Ids} {c : List Char} {e : Nat}
    (h : fsEnd c = some e) : stepFileScan ids c = insAt c e (fs_frag ids) := by
  rw [stepFileScan, h]

theorem stepSources_eq_of_found {ids : Ids} {c : List Char} {e : Nat}
    (h : srcEnd c = some e) : stepSources ids c = insAt c e (src_frag ids) := by
  rw [stepSources, h]

theorem svcMsg_of_found {c : List Char} {e : Nat} (h : svcEnd c = some e) :
    svcMsg c = msgAddedServices := by
  rw [svcMsg, h]

theorem fsMsg_of_found {c : List Char} {e : Nat} (h : fsEnd c = some e) :
    fsMsg c = msgAddedFileScan := by
  rw [fsMsg, h]

theorem srcMsg_of_found {c : List Char} {e : Nat} (h : srcEnd c = some e) :
    srcMsg c = msgAddedSources := by
  rw [srcMsg, h]

/-! ### Claim vocabulary: where an insertion landed -/

/-- `out` is `c` with `frag` inserted at position `p`, and position `p` is
the first occurrence of `marker` in `c`: the fragment sits immediately
before the end-of-section marker. -/
def insertedBeforeMarkerAt (marker c out frag : List Char) (p : Nat) : Prop :=
  out = insAt c p frag ∧ (∃ r, c.drop p = marker ++ r) ∧
    ∀ q, q < p → ¬ ∃ r, c.drop q = marker ++ r

/-- `out` is `c` with `frag` inserted at the end `e` of the matched span of
the group pattern `A [^{}]* B [^)]*`: after the group head `A`, a brace-free
stretch, the list opener `B` and the whole run of pre-existing list entries
(everything up to the next closing parenthesis, if any). -/
def insertedInList (A B c out frag : List Char) (e : Nat) : Prop :=
  ∃ pre mid rn rest,
    c = pre ++ A ++ mid ++ B ++ rn ++ rest ∧
    out = pre ++ A ++ mid ++ B ++ rn ++ frag ++ rest ∧
    (∀ ch ∈ mid, nonBrace ch = true) ∧
    (∀ ch ∈ rn, nonParen ch = true) ∧
    (rest = [] ∨ ∃ r2, rest = ')' :: r2) ∧
    e = (pre ++ A ++ mid ++ B ++ rn).length

theorem insertedBeforeMarkerAt_of_found {marker c frag : List Char} {p : Nat}
    (h : pyFindNat marker c = some p) :
    insertedBeforeMarkerAt marker c (insAt c p frag) frag p := by
  obtain ⟨hle, hsw, hmin⟩ := pyFindNat_some h
  refine ⟨rfl, listStartsWith_iff.mp hsw, ?_⟩
  rintro q hq ⟨r, hr⟩
  have hfalse := hmin q hq
  rw [listStartsWith_iff.mpr ⟨r, hr⟩] at hfalse
  cases hfalse

theorem insertedInList_of_searchEnd {A B frag c : List Char} {e : Nat}
    (h : reSearchEnd A B c = some e) :
    insertedInList A B c (insAt c e frag) frag e := by
  obtain ⟨pre, mid, rn, rest, hdec, hmid, hrn, hrest, he⟩ := reSearchEnd_sound h
  have htake : c.take e = pre ++ A ++ mid ++ B ++ rn := by
    rw [hdec, he, List.take_left]
  have hdrop : c.drop e = rest := by
    rw [hdec, he, List.drop_left]
  refine ⟨pre, mid, rn, rest, hdec, ?_, hmid, hrn, hrest, he⟩
  rw [insAt, htake, hdrop]

theorem stepServices_eq_of_none {ids : Ids} {c : List Char}
    (h : svcEnd c = none) : stepServices ids c = c := by
  rw [stepServices, h]

theorem stepFileScan_eq_of_none {ids : Ids} {c : List Char}
    (h : fsEnd c = none) : stepFileScan ids c = c := by
  rw [stepFileScan, h]

theorem stepSources_eq_of_none {ids : Ids} {c : List Char}
    (h : srcEnd c = none) : stepSources ids c = c := by
  rw [stepSources, h]

theorem svcMsg_of_none {c : List Char} (h : svcEnd c = none) :
    svcMsg c = msgWarnServices := by
  rw [svcMsg, h]

theorem fsMsg_of_none {c : List Char} (h : fsEnd c = none) :
    fsMsg c = msgWarnFileScan := by
  rw [fsMsg, h]

theorem srcMsg_of_none {c : List Char} (h : srcEnd c = none) :
    srcMsg c = msgWarnSources := by
  rw [srcMsg, h]

/-- C1: for a manifest whose content lacks the guard marker and in which all
five anchors are found where the script looks for them (the two
end-of-section markers by substring search on the current content, the
Services and FileScan groups with their children lists and the Sources
build phase with its files list by the pattern search), one run exits 0,
prints the four success messages, and writes back the manifest with the two
file-reference entries spliced immediately before the first occurrence of
the file-reference end marker, the two build-file entries immediately
before the first occurrence of the build-file end marker, exactly one child
line inside each of the two groups matched children spans, and the two
build-phase lines inside the Sources files span — each step a pure splice,
so no other text of the manifest is altered. -/
theorem c1_insertion_complete (ids : Ids) (content : List Char)
    (hg : containsSub guardMarker content = false)
    {p1 : Nat} (h1 : pyFindNat endFileRefMarker content = some p1)
    {p2 : Nat} (h2 : pyFindNat endBuildFileMarker (step1 ids content) = some p2)
    {e3 : Nat} (h3 : svcEnd (step2 ids (step1 ids content)) = some e3)
    {e4 : Nat}
    (h4 : fsEnd (stepServices ids (step2 ids (step1 ids content))) = some e4)
    {e5 : Nat}
    (h5 : srcEnd (stepFileScan ids (stepServices ids
        (step2 ids (step1 ids content)))) = some e5) :
    run ids (some content) =
      ⟨some (stepSources ids (stepFileScan ids (stepServices ids
          (step2 ids (step1 ids content))))),
        [msgAddedServices, msgAddedFileScan, msgAddedSources, msgUpdated], 0⟩ ∧
    insertedBeforeMarkerAt endFileRefMarker content (step1 ids content)
      (new_file_refs ids) p1 ∧
    insertedBeforeMarkerAt endBuildFileMarker (step1 ids content)
      (step2 ids (step1 ids content)) (new_build_files ids) p2 ∧
    insertedInList svcHead childrenOpen (step2 ids (step1 ids content))
      (stepServices ids (step2 ids (step1 ids content))) (svc_frag ids) e3 ∧
    insertedInList fsHead childrenOpen
      (stepServices ids (step2 ids (step1 ids content)))
      (stepFileScan ids (stepServices ids (step2 ids (step1 ids content))))
      (fs_frag ids) e4 ∧
    insertedInList srcHead filesOpen
      (stepFileScan ids (stepServices ids (step2 ids (step1 ids content))))
      (stepSources ids (stepFileScan ids (stepServices ids
        (step2 ids (step1 ids content))))) (src_frag ids) e5 := by
  refine ⟨?_, ?_, ?_, ?_, ?_, ?_⟩
  · rw [run_noguard_eq ids hg, svcMsg_of_found h3, fsMsg_of_found h4, srcMsg_of_found h5]
  · rw [step1_eq_of_found h1]
    exact insertedBeforeMarkerAt_of_found h1
  · rw [step2_eq_of_found h2]
    exact insertedBeforeMarkerAt_of_found h2
  · rw [stepServices_eq_of_found h3]
    exact insertedInList_of_searchEnd h3
  · rw [stepFileScan_eq_of_found h4]
    exact insertedInList_of_searchEnd h4
  · rw [stepSources_eq_of_found h5]
    exact insertedInList_of_searchEnd h5

/-- C5: when the Services pattern finds no match but the other four anchors
are found, the run completes with exit 0, writes the file, prints exactly
one warning (for the Services group) among its four messages, and still
performs the other four insertions. -/
theorem c5_services_missing_resilient (ids : Ids) (content : List Char)
    (hg : containsSub guardMarker content = false)
    {p1 : Nat} (h1 : pyFindNat endFileRefMarker content = some p1)
    {p2 : Nat} (h2 : pyFindNat endBuildFileMarker (step1 ids content) = some p2)
    (h3 : svcEnd (step2 ids (step1 ids content)) = none)
    {e4 : Nat} (h4 : fsEnd (step2 ids (step1 ids content)) = some e4)
    {e5 : Nat}
    (h5 : srcEnd (stepFileScan ids (step2 ids (step1 ids content))) = some e5) :
    run ids (some content) =
      ⟨some (stepSources ids (stepFileScan ids (step2 ids (step1 ids content)))),
        [msgWarnServices, msgAddedFileScan, msgAddedSources, msgUpdated], 0⟩ ∧
    insertedBeforeMarkerAt endFileRefMarker content (step1 ids content)
      (new_file_refs ids) p1 ∧
    insertedBeforeMarkerAt endBuildFileMarker (step1 ids content)
      (step2 ids (step1 ids content)) (new_build_files ids) p2 ∧
    insertedInList fsHead childrenOpen (step2 ids (step1 ids content))
      (stepFileScan ids (step2 ids (step1 ids content))) (fs_frag ids) e4 ∧
    insertedInList srcHead filesOpen
      (stepFileScan ids (step2 ids (step1 ids content)))
      (stepSources ids (stepFileScan ids (step2 ids (step1 ids content))))
      (src_frag ids) e5 := by
  refine ⟨?_, ?_, ?_, ?_, ?_⟩
  · rw [run_noguard_eq ids hg, stepServices_eq_of_none h3, svcMsg_of_none h3,
      fsMsg_of_found h4, srcMsg_of_found h5]
  · rw [step1_eq_of_found h1]
    exact insertedBeforeMarkerAt_of_found h1
  · rw [step2_eq_of_found h2]
    exact insertedBeforeMarkerAt_of_found h2
  · rw [stepFileScan_eq_of_found h4]
    exact insertedInList_of_searchEnd h4
  · rw [stepSources_eq_of_found h5]
    exact insertedInList_of_searchEnd h5

/-! ### Concrete sample data for witnesses -/

/-- Four fixed 24-character uppercase-hex identifiers, standing in for one
run of the `gen_uuid()` calls. -/
def sampleIds : Ids := ⟨"AAAAAAAAAAAAAAAAAAAAAAAA".toList, "CCCCCCCCCCCCCCCCCCCCCCCC".toList, "BBBBBBBBBBBBBBBBBBBBBBBB".toList, "DDDDDDDDDDDDDDDDDDDDDDDD".toList⟩

/-- A minimal well-formed manifest containing all five anchors. -/
def sampleManifest : List Char := "// !$*UTF8*$!\n/* Begin PBXBuildFile section */\n\t\t1111 /* App.swift in Sources */ = \x7bisa = PBXBuildFile; fileRef = 2222 /* App.swift */; \x7d;\n/* End PBXBuildFile section */\n/* Begin PBXFileReference section */\n\t\t2222 /* App.swift */ = \x7bisa = PBXFileReference; path = App.swift; \x7d;\n/* End PBXFileReference section */\n/* Begin PBXGroup section */\n\t\t3333 /* Services */ = \x7b\n\t\t\tisa = PBXGroup;\n\t\t\tchildren = (\n\t\t\t\t2222 /* App.swift */,\n\t\t\t);\n\t\t\tpath = Services;\n\t\t\x7d;\n\t\t4444 /* FileScan */ = \x7b\n\t\t\tisa = PBXGroup;\n\t\t\tchildren = (\n\t\t\t);\n\t\t\tpath = FileScan;\n\t\t\x7d;\n/* End PBXGroup section */\n/* Begin PBXSourcesBuildPhase section */\n\t\t5555 /* Sources */ = \x7b\n\t\t\tisa = PBXSourcesBuildPhase;\n\t\t\tfiles = (\n\t\t\t\t1111 /* App.swift in Sources */,\n\t\t\t);\n\t\t\x7d;\n/* End PBXSourcesBuildPhase section */\n".toList

/-- The same manifest with the Services group renamed, so the Services
pattern cannot match while the four other anchors stay intact. -/
def sampleManifestNoSvc : List Char := "// !$*UTF8*$!\n/* Begin PBXBuildFile section */\n\t\t1111 /* App.swift in Sources */ = \x7bisa = PBXBuildFile; fileRef = 2222 /* App.swift */; \x7d;\n/* End PBXBuildFile section */\n/* Begin PBXFileReference section */\n\t\t2222 /* App.swift */ = \x7bisa = PBXFileReference; path = App.swift; \x7d;\n/* End PBXFileReference section */\n/* Begin PBXGroup section */\n\t\t3333 /* Svc */ = \x7b\n\t\t\tisa = PBXGroup;\n\t\t\tchildren = (\n\t\t\t\t2222 /* App.swift */,\n\t\t\t);\n\t\t\tpath = Services;\n\t\t\x7d;\n\t\t4444 /* FileScan */ = \x7b\n\t\t\tisa = PBXGroup;\n\t\t\tchildren = (\n\t\t\t);\n\t\t\tpath = FileScan;\n\t\t\x7d;\n/* End PBXGroup section */\n/* Begin PBXSourcesBuildPhase section */\n\t\t5555 /* Sources */ = \x7b\n\t\t\tisa = PBXSourcesBuildPhase;\n\t\t\tfiles = (\n\t\t\t\t1111 /* App.swift in Sources */,\n\t\t\t);\n\t\t\x7d;\n/* End PBXSourcesBuildPhase section */\n".toList

/-- Witness for C1 at a concrete five-anchor manifest. -/
theorem c1_insertion_complete_witness :
    (containsSub guardMarker sampleManifest = false ∧
     pyFindNat endFileRefMarker sampleManifest = some 278 ∧
     pyFindNat endBuildFileMarker (step1 sampleIds sampleManifest) = some 139 ∧
     svcEnd (step2 sampleIds (step1 sampleIds sampleManifest)) = some 1126 ∧
     fsEnd (stepServices sampleIds (step2 sampleIds
       (step1 sampleIds sampleManifest))) = some 1278 ∧
     srcEnd (stepFileScan sampleIds (stepServices sampleIds (step2 sampleIds
       (step1 sampleIds sampleManifest)))) = some 1546) ∧
    (run sampleIds (some sampleManifest) =
      ⟨some (stepSources sampleIds (stepFileScan sampleIds (stepServices sampleIds
          (step2 sampleIds (step1 sampleIds sampleManifest))))),
        [msgAddedServices, msgAddedFileScan, msgAddedSources, msgUpdated], 0⟩ ∧
    insertedBeforeMarkerAt endFileRefMarker sampleManifest
      (step1 sampleIds sampleManifest) (new_file_refs sampleIds) 278 ∧
    insertedBeforeMarkerAt endBuildFileMarker (step1 sampleIds sampleManifest)
      (step2 sampleIds (step1 sampleIds sampleManifest))
      (new_build_files sampleIds) 139 ∧
    insertedInList svcHead childrenOpen
      (step2 sampleIds (step1 sampleIds sampleManifest))
      (stepServices sampleIds (step2 sampleIds (step1 sampleIds sampleManifest)))
      (svc_frag sampleIds) 1126 ∧
    insertedInList fsHead childrenOpen
      (stepServices sampleIds (step2 sampleIds (step1 sampleIds sampleManifest)))
      (stepFileScan sampleIds (stepServices sampleIds (step2 sampleIds
        (step1 sampleIds sampleManifest))))
      (fs_frag sampleIds) 1278 ∧
    insertedInList srcHead filesOpen
      (stepFileScan sampleIds (stepServices sampleIds (step2 sampleIds
        (step1 sampleIds sampleManifest))))
      (stepSources sampleIds (stepFileScan sampleIds (stepServices sampleIds
        (step2 sampleIds (step1 sampleIds sampleManifest)))))
      (src_frag sampleIds) 1546) :=
  ⟨⟨by decide, by decide, by decide, by decide, by decide, by decide⟩,
    c1_insertion_complete sampleIds sampleManifest (by decide) (by decide)
      (by decide) (by decide) (by decide) (by decide)⟩

/-- Witness for C5 at a concrete manifest lacking only the Services group. -/
theorem c5_services_missing_resilient_witness :
    (containsSub guardMarker sampleManifestNoSvc = false ∧
     pyFindNat endFileRefMarker sampleManifestNoSvc = some 278 ∧
     pyFindNat endBuildFileMarker (step1 sampleIds sampleManifestNoSvc) = some 139 ∧
     svcEnd (step2 sampleIds (step1 sampleIds sampleManifestNoSvc)) = none ∧
     fsEnd (step2 sampleIds (step1 sampleIds sampleManifestNoSvc)) = some 1213 ∧
     srcEnd (stepFileScan sampleIds (step2 sampleIds
       (step1 sampleIds sampleManifestNoSvc))) = some 1481) ∧
    (run sampleIds (some sampleManifestNoSvc) =
      ⟨some (stepSources sampleIds (stepFileScan sampleIds
          (step2 sampleIds (step1 sampleIds sampleManifestNoSvc)))),
        [msgWarnServices, msgAddedFileScan, msgAddedSources, msgUpdated], 0⟩ ∧
    insertedBeforeMarkerAt endFileRefMarker sampleManifestNoSvc
      (step1 sampleIds sampleManifestNoSvc) (new_file_refs sampleIds) 278 ∧
    insertedBeforeMarkerAt endBuildFileMarker (step1 sampleIds sampleManifestNoSvc)
      (step2 sampleIds (step1 sampleIds sampleManifestNoSvc))
      (new_build_files sampleIds) 139 ∧
    insertedInList fsHead childrenOpen
      (step2 sampleIds (step1 sampleIds sampleManifestNoSvc))
      (stepFileScan sampleIds (step2 sampleIds (step1 sampleIds sampleManifestNoSvc)))
      (fs_frag sampleIds) 1213 ∧
    insertedInList srcHead filesOpen
      (stepFileScan sampleIds (step2 sampleIds (step1 sampleIds sampleManifestNoSvc)))
      (stepSources sampleIds (stepFileScan sampleIds
        (step2 sampleIds (step1 sampleIds sampleManifestNoSvc))))
      (src_frag sampleIds) 1481) :=
  ⟨⟨by decide, by decide, by decide, by decide, by decide, by decide⟩,
    c5_services_missing_resilient sampleIds sampleManifestNoSvc (by decide) (by decide)
      (by decide) (by decide) (by decide) (by decide)⟩


/-! ### More splice lemmas -/

theorem drop_append_of_ge {a b : List Char} {p : Nat} (h : a.length ≤ p) :
    (a ++ b).drop p = b.drop (p - a.length) := by
  induction a generalizing p with
  | nil => simp
  | cons x a2 ih =>
    cases p with
    | zero => simp at h
    | succ p2 =>
      have h2 : a2.length ≤ p2 := by simp at h; omega
      calc ((x :: a2) ++ b).drop (p2 + 1) = (a2 ++ b).drop p2 := rfl
        _ = b.drop (p2 - a2.length) := ih h2
        _ = b.drop (p2 + 1 - (x :: a2).length) := by simp

theorem insAt_append_left {a b t : List Char} {p : Nat} (h : p ≤ a.length) :
    insAt (a ++ b) p t = insAt a p t ++ b := by
  rw [insAt, insAt, List.take_append_eq_append_take, Nat.sub_eq_zero_of_le h,
    List.take_zero, List.append_nil, List.drop_append_of_le_length h]
  simp [List.append_assoc]

theorem insAt_append_right {a b t : List Char} {p : Nat} (h : a.length ≤ p) :
    insAt (a ++ b) p t = a ++ insAt b (p - a.length) t := by
  rw [insAt, insAt, take_append_of_le_length p h, drop_append_of_ge h]
  simp [List.append_assoc]

/-! ### C10: runs only insert text -/

/-- Interleaving of the original pieces (second components) with the
inserted separators (first components). -/
def assemble (a0 : List Char) (ps : List (List Char × List Char)) : List Char :=
  a0 ++ (ps.map (fun pr => pr.1 ++ pr.2)).flatten

/-- The original pieces alone. -/
def coreOf (a0 : List Char) (ps : List (List Char × List Char)) : List Char :=
  a0 ++ (ps.map (fun pr => pr.2)).flatten

/-- `out` contains `orig` split into at most `k + 1` contiguous pieces, in
order, with inserted text between them and nothing of `orig` deleted. -/
def SpliceOf (orig out : List Char) (k : Nat) : Prop :=
  ∃ a0 ps, List.length ps ≤ k ∧ orig = coreOf a0 ps ∧ out = assemble a0 ps

theorem spliceOf_refl (c : List Char) (k : Nat) : SpliceOf c c k :=
  ⟨c, [], by simp, by simp [coreOf], by simp [assemble]⟩

theorem spliceOf_mono {orig out : List Char} {k k2 : Nat}
    (h : SpliceOf orig out k) (hk : k ≤ k2) : SpliceOf orig out k2 := by
  obtain ⟨a0, ps, hlen, hc, ha⟩ := h
  exact ⟨a0, ps, Nat.le_trans hlen hk, hc, ha⟩

theorem assemble_insert {ps : List (List Char × List Char)} :
    ∀ {a0 : List Char} (p : Nat) (t : List Char),
      ∃ a02 ps2, ps2.length ≤ ps.length + 1 ∧
        coreOf a02 ps2 = coreOf a0 ps ∧
        assemble a02 ps2 = insAt (assemble a0 ps) p t := by
  induction ps with
  | nil =>
    intro a0 p t
    refine ⟨a0.take p, [(t, a0.drop p)], by simp, ?_, ?_⟩
    · simp only [coreOf, List.map_cons, List.map_nil, List.flatten_cons,
        List.flatten_nil]
      simp
    · simp only [assemble, insAt, List.map_cons, List.map_nil, List.flatten_cons,
        List.flatten_nil]
      simp
  | cons hd ps0 ih =>
    intro a0 p t
    obtain ⟨s, a⟩ := hd
    rcases le_or_lt p a0.length with hp | hp
    · refine ⟨a0.take p, (t, a0.drop p) :: (s, a) :: ps0, by simp, ?_, ?_⟩
      · simp only [coreOf, List.map_cons, List.flatten_cons]
        rw [← List.append_assoc, List.take_append_drop]
      · simp only [assemble, List.map_cons, List.flatten_cons]
        rw [insAt_append_left hp]
        simp [insAt, List.append_assoc]
    · rcases le_or_lt (p - a0.length) s.length with hp2 | hp2
      · refine ⟨a0,
          (s.take (p - a0.length) ++ t ++ s.drop (p - a0.length), a) :: ps0,
          by simp, ?_, ?_⟩
        · simp [coreOf]
        · simp only [assemble, List.map_cons, List.flatten_cons]
          conv_rhs => rw [insAt_append_right (Nat.le_of_lt hp), List.append_assoc,
            insAt_append_left hp2]
          simp [insAt, List.append_assoc]
      · obtain ⟨a02, ps2, hlen2, hcore2, hasm2⟩ := @ih a (p - a0.length - s.length) t
        refine ⟨a0, (s, a02) :: ps2, by simp; omega, ?_, ?_⟩
        · simp only [coreOf, List.map_cons, List.flatten_cons] at hcore2 ⊢
          rw [hcore2]
        · simp only [assemble, List.map_cons, List.flatten_cons] at hasm2 ⊢
          conv_rhs => rw [insAt_append_right (Nat.le_of_lt hp), List.append_assoc,
            insAt_append_right (Nat.le_of_lt hp2), ← hasm2]
          simp [List.append_assoc]

theorem spliceOf_insAt {orig out : List Char} {k : Nat} (h : SpliceOf orig out k)
    (p : Nat) (t : List Char) : SpliceOf orig (insAt out p t) (k + 1) := by
  obtain ⟨a0, ps, hlen, hcore, hout⟩ := h
  obtain ⟨a02, ps2, hlen2, hcore2, hasm2⟩ := @assemble_insert ps a0 p t
  exact ⟨a02, ps2, by omega, by rw [hcore, ← hcore2], by rw [hasm2, hout]⟩

theorem stepServices_length (ids : Ids) (c : List Char) :
    (stepServices ids c).length = c.length +
      (match svcEnd c with | some _ => (svc_frag ids).length | none => 0) := by
  cases h : svcEnd c with
  | some e =>
    rw [stepServices_eq_of_found h]
    simp [insAt_length]
  | none =>
    rw [stepServices_eq_of_none h]
    simp

theorem stepFileScan_length (ids : Ids) (c : List Char) :
    (stepFileScan ids c).length = c.length +
      (match fsEnd c with | some _ => (fs_frag ids).length | none => 0) := by
  cases h : fsEnd c with
  | some e =>
    rw [stepFileScan_eq_of_found h]
    simp [insAt_length]
  | none =>
    rw [stepFileScan_eq_of_none h]
    simp

theorem stepSources_length (ids : Ids) (c : List Char) :
    (stepSources ids c).length = c.length +
      (match srcEnd c with | some _ => (src_frag ids).length | none => 0) := by
  cases h : srcEnd c with
  | some e =>
    rw [stepSources_eq_of_found h]
    simp [insAt_length]
  | none =>
    rw [stepSources_eq_of_none h]
    simp

/-- C10: every run that reaches the write step only inserts text: the
written output contains the entire original content as at most six
contiguous pieces in order (the original split at up to five splice
points), with no original character deleted or replaced, and the output
length equals the input length plus the total length of the fragments
actually inserted. -/
theorem c10_pure_insertion (ids : Ids) (content : List Char)
    (hg : containsSub guardMarker content = false) :
    (run ids (some content)).written =
      some (stepSources ids (stepFileScan ids (stepServices ids
        (step2 ids (step1 ids content))))) ∧
    SpliceOf content (stepSources ids (stepFileScan ids (stepServices ids
      (step2 ids (step1 ids content))))) 5 ∧
    (stepSources ids (stepFileScan ids (stepServices ids
      (step2 ids (step1 ids content))))).length =
      content.length + insertedLen ids content := by
  have s1 : SpliceOf content (step1 ids content) 1 :=
    spliceOf_insAt (spliceOf_refl content 0) _ _
  have s2 : SpliceOf content (step2 ids (step1 ids content)) 2 :=
    spliceOf_insAt s1 _ _
  have s3 : SpliceOf content (stepServices ids (step2 ids (step1 ids content))) 3 := by
    cases hsvc : svcEnd (step2 ids (step1 ids content)) with
    | some e =>
      rw [stepServices_eq_of_found hsvc]
      exact spliceOf_insAt s2 e _
    | none =>
      rw [stepServices_eq_of_none hsvc]
      exact spliceOf_mono s2 (by omega)
  have s4 : SpliceOf content (stepFileScan ids (stepServices ids
      (step2 ids (step1 ids content)))) 4 := by
    cases hfs : fsEnd (stepServices ids (step2 ids (step1 ids content))) with
    | some e =>
      rw [stepFileScan_eq_of_found hfs]
      exact spliceOf_insAt s3 e _
    | none =>
      rw [stepFileScan_eq_of_none hfs]
      exact spliceOf_mono s3 (by omega)
  have s5 : SpliceOf content (stepSources ids (stepFileScan ids (stepServices ids
      (step2 ids (step1 ids content))))) 5 := by
    cases hsrc : srcEnd (stepFileScan ids (stepServices ids
        (step2 ids (step1 ids content)))) with
    | some e =>
      rw [stepSources_eq_of_found hsrc]
      exact spliceOf_insAt s4 e _
    | none =>
      rw [stepSources_eq_of_none hsrc]
      exact spliceOf_mono s4 (by omega)
  refine ⟨by rw [run_noguard_eq ids hg], s5, ?_⟩
  have l1 : (step1 ids content).length =
      content.length + (new_file_refs ids).length :=
    insAt_length content _ _
  have l2 : (step2 ids (step1 ids content)).length =
      (step1 ids content).length + (new_build_files ids).length :=
    insAt_length _ _ _
  rw [stepSources_length, stepFileScan_length, stepServices_length, l2, l1]
  simp only [insertedLen]
  omega

/-- Witness for C10 at a concrete five-anchor manifest. -/
theorem c10_pure_insertion_witness :
    containsSub guardMarker sampleManifest = false ∧
    ((run sampleIds (some sampleManifest)).written =
      some (stepSources sampleIds (stepFileScan sampleIds (stepServices sampleIds
        (step2 sampleIds (step1 sampleIds sampleManifest))))) ∧
    SpliceOf sampleManifest (stepSources sampleIds (stepFileScan sampleIds
      (stepServices sampleIds (step2 sampleIds (step1 sampleIds sampleManifest))))) 5 ∧
    (stepSources sampleIds (stepFileScan sampleIds (stepServices sampleIds
      (step2 sampleIds (step1 sampleIds sampleManifest))))).length =
      sampleManifest.length + insertedLen sampleIds sampleManifest) :=
  ⟨by decide, c10_pure_insertion sampleIds sampleManifest (by decide)⟩

/-! ### C4: where the group child line lands inside the matched span -/

/-- C4 counterexample: on a concrete manifest whose Services group has a
nonempty children list, the matched child-list span runs from position 402
(just after `children = (`) to position 432 (the greedy match end, just
before the closing parenthesis); the script inserts the new child at the
END of the span (432), and the result differs from inserting it at the
start of the span (402) as the claim states — so the new child follows the
pre-existing children instead of preceding them. -/
theorem c4_start_of_span_counterexample :
    reSearchSpan svcHead childrenOpen sampleManifest = some (402, 432) ∧
    (402 : Nat) ≠ 432 ∧
    stepServices sampleIds sampleManifest =
      insAt sampleManifest 432 (svc_frag sampleIds) ∧
    stepServices sampleIds sampleManifest ≠
      insAt sampleManifest 402 (svc_frag sampleIds) :=
  ⟨by decide, by decide, by decide, by decide⟩

/-- C4 (amended): for every content in which a group pattern matches, the
new child line is inserted at the END of the matched span — after the whole
greedy run of pre-existing children, immediately before the closing
parenthesis when one follows — for both the Services and FileScan steps. -/
theorem c4_child_inserted_at_span_end (ids : Ids) (c cf : List Char)
    {e3 : Nat} (h3 : svcEnd c = some e3) {e4 : Nat} (h4 : fsEnd cf = some e4) :
    insertedInList svcHead childrenOpen c (stepServices ids c) (svc_frag ids) e3 ∧
    insertedInList fsHead childrenOpen cf (stepFileScan ids cf) (fs_frag ids) e4 := by
  constructor
  · rw [stepServices_eq_of_found h3]
    exact insertedInList_of_searchEnd h3
  · rw [stepFileScan_eq_of_found h4]
    exact insertedInList_of_searchEnd h4

/-- Witness for the amended C4 at the concrete sample manifest. -/
theorem c4_child_inserted_at_span_end_witness :
    (svcEnd sampleManifest = some 432 ∧ fsEnd sampleManifest = some 524) ∧
    (insertedInList svcHead childrenOpen sampleManifest
      (stepServices sampleIds sampleManifest) (svc_frag sampleIds) 432 ∧
    insertedInList fsHead childrenOpen sampleManifest
      (stepFileScan sampleIds sampleManifest) (fs_frag sampleIds) 524) :=
  ⟨⟨by decide, by decide⟩,
    c4_child_inserted_at_span_end sampleIds sampleManifest sampleManifest
      (by decide) (by decide)⟩


/-! ### C7: identifier linkage and uniqueness in the file-reference table -/

/-- Spec section delimiter opening the file-reference table (the script
itself only uses the end marker; the table is the text between the two). -/
def beginFileRefMarker : List Char := "/* Begin PBXFileReference section */".toList

/-- No window of 24 consecutive characters of `t` consists solely of
uppercase hexadecimal digits. -/
def noHexWin24 (t : List Char) : Bool :=
  (List.range (t.length + 1)).all fun p =>
    !(decide (p + 24 ≤ t.length)) || ((t.drop p).take 24).any fun ch =>
      !(decide (ch ∈ upperHexDigits))

theorem occCount_eq_zero_of_all {pat : List Char} :
    ∀ {s : List Char}, (∀ q, listStartsWith pat (s.drop q) = false) →
      occCount pat s = 0 := by
  intro s
  induction s with
  | nil =>
    intro h
    have h0 := h 0
    simp only [List.drop_nil] at h0
    simp [occCount, h0]
  | cons x rest ih =>
    intro h
    have h0 := h 0
    simp only [List.drop_zero] at h0
    rw [occCount_cons, h0, ih fun q => h (q + 1)]
    simp

theorem occCount_eq_zero_of_not_contains {pat s : List Char}
    (h : containsSub pat s = false) : occCount pat s = 0 :=
  occCount_eq_zero_of_all (pyFindAux_none (pyFindNat_none_of_not_contains h))

theorem not_mem_of_all_hex {pat : List Char}
    (hhex : ∀ c ∈ pat, c ∈ upperHexDigits) {ch : Char}
    (hch : ch ∉ upperHexDigits) : ch ∉ pat :=
  fun hmem => hch (hhex ch hmem)

theorem occCount_eq_zero_of_noHexWin {pat t : List Char} (hlen : pat.length = 24)
    (hhex : ∀ c ∈ pat, c ∈ upperHexDigits) (ht : noHexWin24 t = true) :
    occCount pat t = 0 := by
  apply occCount_eq_zero_of_all
  intro q
  cases hsw : listStartsWith pat (t.drop q)
  · rfl
  · exfalso
    obtain ⟨r, hr⟩ := listStartsWith_iff.mp hsw
    have hqlen : q + 24 ≤ t.length := by
      have h1 := listStartsWith_length_le hsw
      rw [hlen, List.length_drop] at h1
      have h2 : q ≤ t.length := by
        by_contra hq2
        rw [List.drop_eq_nil_of_le (by omega)] at hr
        have := congrArg List.length hr
        simp at this
        omega
      omega
    have hwin : (t.drop q).take 24 = pat := by
      rw [hr, ← hlen, List.take_left]
    rw [noHexWin24, List.all_eq_true] at ht
    have hq := ht q (by rw [List.mem_range]; omega)
    rw [Bool.or_eq_true] at hq
    rcases hq with hq | hq
    · simp at hq
      omega
    · rw [List.any_eq_true] at hq
      obtain ⟨ch, hch, hch2⟩ := hq
      rw [hwin] at hch
      simp at hch2
      exact hch2 (hhex ch hch)

theorem head?_append_of_head? {a b : List Char} {ch : Char}
    (h : a.head? = some ch) : (a ++ b).head? = some ch := by
  cases a with
  | nil => cases h
  | cons x t =>
    simp only [List.head?_cons, Option.some.injEq] at h
    simp [h]

theorem headFree_of_head? {pat b : List Char} {ch : Char} (h : b.head? = some ch)
    (hch : ch ∉ pat) : ∀ c, b.head? = some c → c ∉ pat := by
  intro c hc
  rw [h] at hc
  injection hc with hc
  rw [← hc]
  exact hch

theorem lastFree_of_getLast? {pat a : List Char} {ch : Char}
    (h : a.getLast? = some ch) (hch : ch ∉ pat) :
    ∀ c, a.getLast? = some c → c ∉ pat := by
  intro c hc
  rw [h] at hc
  injection hc with hc
  rw [← hc]
  exact hch

theorem occCount_ids_in_new_file_refs (ids : Ids)
    (h1hex : ∀ c ∈ ids.perm_svc_file_ref, c ∈ upperHexDigits)
    (h1len : ids.perm_svc_file_ref.length = 24)
    (h2hex : ∀ c ∈ ids.perm_denied_file_ref, c ∈ upperHexDigits)
    (h2len : ids.perm_denied_file_ref.length = 24)
    (hne : ids.perm_svc_file_ref ≠ ids.perm_denied_file_ref) :
    occCount ids.perm_svc_file_ref (new_file_refs ids) = 1 ∧
    occCount ids.perm_denied_file_ref (new_file_refs ids) = 1 := by
  have h1ne : ids.perm_svc_file_ref ≠ [] := by
    intro h
    rw [h] at h1len
    cases h1len
  have h2ne : ids.perm_denied_file_ref ≠ [] := by
    intro h
    rw [h] at h2len
    cases h2len
  have hshape : new_file_refs ids =
      (nfr_t0 ++ ids.perm_svc_file_ref) ++
        (nfr_t1 ++ (ids.perm_denied_file_ref ++ nfr_t2)) := by
    rw [new_file_refs]
    simp [List.append_assoc]
  have ht1head : (nfr_t1 ++ (ids.perm_denied_file_ref ++ nfr_t2)).head? = some ' ' :=
    head?_append_of_head? (by decide)
  have ht2head : nfr_t2.head? = some ' ' := by decide
  have ht0last : nfr_t0.getLast? = some '\t' := by decide
  have ht1last : nfr_t1.getLast? = some '\t' := by decide
  have ht0ne : nfr_t0 ≠ [] := by decide
  have ht1ne : nfr_t1 ≠ [] := by decide
  have hwin1 : noHexWin24 nfr_t1 = true := by decide
  have hwin2 : noHexWin24 nfr_t2 = true := by decide
  constructor
  · rw [hshape,
      occCount_append_headFree h1ne
        (headFree_of_head? ht1head (not_mem_of_all_hex h1hex (by decide))),
      occCount_append_lastFree h1ne ht0ne
        (lastFree_of_getLast? ht0last (not_mem_of_all_hex h1hex (by decide))),
      occCount_short (s := nfr_t0) (by rw [h1len]; decide),
      occCount_self h1ne,
      occCount_append_lastFree h1ne ht1ne
        (lastFree_of_getLast? ht1last (not_mem_of_all_hex h1hex (by decide))),
      occCount_eq_zero_of_noHexWin h1len h1hex hwin1,
      occCount_append_headFree h1ne
        (headFree_of_head? ht2head (not_mem_of_all_hex h1hex (by decide))),
      occCount_eq_of_same_length (by rw [h1len, h2len]),
      occCount_eq_zero_of_noHexWin h1len h1hex hwin2]
    simp [hne]
  · rw [hshape,
      occCount_append_headFree h2ne
        (headFree_of_head? ht1head (not_mem_of_all_hex h2hex (by decide))),
      occCount_append_lastFree h2ne ht0ne
        (lastFree_of_getLast? ht0last (not_mem_of_all_hex h2hex (by decide))),
      occCount_short (s := nfr_t0) (by rw [h2len]; decide),
      occCount_eq_of_same_length (by rw [h2len, h1len]),
      occCount_append_lastFree h2ne ht1ne
        (lastFree_of_getLast? ht1last (not_mem_of_all_hex h2hex (by decide))),
      occCount_eq_zero_of_noHexWin h2len h2hex hwin1,
      occCount_append_headFree h2ne
        (headFree_of_head? ht2head (not_mem_of_all_hex h2hex (by decide))),
      occCount_self h2ne,
      occCount_eq_zero_of_noHexWin h2len h2hex hwin2]
    have hne2 : ids.perm_denied_file_ref ≠ ids.perm_svc_file_ref := fun h => hne h.symm
    simp [hne2]

/-- C7: in a run that performs insertions (guard absent), with the four
generated identifiers fresh 24-character uppercase-hex tokens (pairwise use
here needs only that the two file-reference ids are such, distinct, and do
not already occur in the table body `v`), on a manifest whose
file-reference table is the segment `v` between the Begin and End markers,
whose build-file section lies inside the prefix `u` (the build-file end
marker is found at `q ≤ u.length`) and whose group and build-phase anchors
all lie after the file-reference table: the written output keeps the table
as `v ++ new_file_refs ids` between the two markers, each of the two
file-reference ids occurs exactly once in that table, and the two build-file
entries reference — via their `fileRef = ` field — exactly the
file-reference ids generated for the same files in the same run. -/
theorem c7_linkage_and_uniqueness (ids : Ids) (content u v w : List Char)
    (hceq : content = u ++ beginFileRefMarker ++ v ++ endFileRefMarker ++ w)
    (h1hex : ∀ c ∈ ids.perm_svc_file_ref, c ∈ upperHexDigits)
    (h1len : ids.perm_svc_file_ref.length = 24)
    (h2hex : ∀ c ∈ ids.perm_denied_file_ref, c ∈ upperHexDigits)
    (h2len : ids.perm_denied_file_ref.length = 24)
    (hne : ids.perm_svc_file_ref ≠ ids.perm_denied_file_ref)
    (hv1 : containsSub ids.perm_svc_file_ref v = false)
    (hv2 : containsSub ids.perm_denied_file_ref v = false)
    (hg : containsSub guardMarker content = false)
    (h1 : pyFindNat endFileRefMarker content =
      some ((u ++ beginFileRefMarker ++ v).length))
    {q : Nat} (h2 : pyFindNat endBuildFileMarker (step1 ids content) = some q)
    (hq : q ≤ u.length)
    (hL3 : ∀ e, svcEnd (step2 ids (step1 ids content)) = some e →
      u.length + (new_build_files ids).length + beginFileRefMarker.length +
        v.length + (new_file_refs ids).length + endFileRefMarker.length ≤ e)
    (hL4 : ∀ e, fsEnd (stepServices ids (step2 ids (step1 ids content))) = some e →
      u.length + (new_build_files ids).length + beginFileRefMarker.length +
        v.length + (new_file_refs ids).length + endFileRefMarker.length ≤ e)
    (hL5 : ∀ e, srcEnd (stepFileScan ids (stepServices ids
        (step2 ids (step1 ids content)))) = some e →
      u.length + (new_build_files ids).length + beginFileRefMarker.length +
        v.length + (new_file_refs ids).length + endFileRefMarker.length ≤ e) :
    ∃ w5, (run ids (some content)).written =
        some (insAt u q (new_build_files ids) ++ beginFileRefMarker ++
          (v ++ new_file_refs ids) ++ endFileRefMarker ++ w5) ∧
      occCount ids.perm_svc_file_ref (v ++ new_file_refs ids) = 1 ∧
      occCount ids.perm_denied_file_ref (v ++ new_file_refs ids) = 1 ∧
      new_build_files ids = nbf_s0 ++ ids.perm_svc_build_file ++ nbf_s1 ++
        ids.perm_svc_file_ref ++ nbf_s2 ++ ids.perm_denied_build_file ++ nbf_s3 ++
        ids.perm_denied_file_ref ++ nbf_s4 := by
  have h1ne : ids.perm_svc_file_ref ≠ [] := by
    intro h
    rw [h] at h1len
    cases h1len
  have h2ne : ids.perm_denied_file_ref ≠ [] := by
    intro h
    rw [h] at h2len
    cases h2len
  have hc : content = (u ++ beginFileRefMarker ++ v) ++ (endFileRefMarker ++ w) := by
    rw [hceq]
    simp [List.append_assoc]
  have hstep1 : step1 ids content = u ++ (beginFileRefMarker ++ (v ++
      (new_file_refs ids ++ (endFileRefMarker ++ w)))) := by
    rw [step1_eq_of_found h1, insAt]
    conv_lhs => rw [hc, List.take_left, List.drop_left]
    simp [List.append_assoc]
  have hstep2 : step2 ids (step1 ids content) =
      (insAt u q (new_build_files ids) ++ beginFileRefMarker ++ v ++
        new_file_refs ids ++ endFileRefMarker) ++ w := by
    rw [step2_eq_of_found h2, hstep1, insAt_append_left hq]
    simp [List.append_assoc]
  have hPFXlen : (insAt u q (new_build_files ids) ++ beginFileRefMarker ++ v ++
      new_file_refs ids ++ endFileRefMarker).length =
      u.length + (new_build_files ids).length + beginFileRefMarker.length +
        v.length + (new_file_refs ids).length + endFileRefMarker.length := by
    simp only [List.length_append, insAt_length]
  have h3 : ∃ w3, stepServices ids (step2 ids (step1 ids content)) =
      (insAt u q (new_build_files ids) ++ beginFileRefMarker ++ v ++
        new_file_refs ids ++ endFileRefMarker) ++ w3 := by
    cases hsvc : svcEnd (step2 ids (step1 ids content)) with
    | none => exact ⟨w, by rw [stepServices_eq_of_none hsvc, hstep2]⟩
    | some e =>
      have hle : (insAt u q (new_build_files ids) ++ beginFileRefMarker ++ v ++
          new_file_refs ids ++ endFileRefMarker).length ≤ e := by
        rw [hPFXlen]
        exact hL3 e hsvc
      exact ⟨_, by rw [stepServices_eq_of_found hsvc, hstep2, insAt_append_right hle]⟩
  obtain ⟨w3, hw3⟩ := h3
  have h4 : ∃ w4, stepFileScan ids (stepServices ids (step2 ids (step1 ids content))) =
      (insAt u q (new_build_files ids) ++ beginFileRefMarker ++ v ++
        new_file_refs ids ++ endFileRefMarker) ++ w4 := by
    cases hfs : fsEnd (stepServices ids (step2 ids (step1 ids content))) with
    | none => exact ⟨w3, by rw [stepFileScan_eq_of_none hfs, hw3]⟩
    | some e =>
      have hle : (insAt u q (new_build_files ids) ++ beginFileRefMarker ++ v ++
          new_file_refs ids ++ endFileRefMarker).length ≤ e := by
        rw [hPFXlen]
        exact hL4 e hfs
      exact ⟨_, by rw [stepFileScan_eq_of_found hfs, hw3, insAt_append_right hle]⟩
  obtain ⟨w4, hw4⟩ := h4
  have h5 : ∃ w5, stepSources ids (stepFileScan ids (stepServices ids
      (step2 ids (step1 ids content)))) =
      (insAt u q (new_build_files ids) ++ beginFileRefMarker ++ v ++
        new_file_refs ids ++ endFileRefMarker) ++ w5 := by
    cases hsrc : srcEnd (stepFileScan ids (stepServices ids
        (step2 ids (step1 ids content)))) with
    | none => exact ⟨w4, by rw [stepSources_eq_of_none hsrc, hw4]⟩
    | some e =>
      have hle : (insAt u q (new_build_files ids) ++ beginFileRefMarker ++ v ++
          new_file_refs ids ++ endFileRefMarker).length ≤ e := by
        rw [hPFXlen]
        exact hL5 e hsrc
      exact ⟨_, by rw [stepSources_eq_of_found hsrc, hw4, insAt_append_right hle]⟩
  obtain ⟨w5, hw5⟩ := h5
  have hnfrhead : (new_file_refs ids).head? = some '\t' := by
    rw [new_file_refs]
    apply head?_append_of_head?
    apply head?_append_of_head?
    apply head?_append_of_head?
    apply head?_append_of_head?
    decide
  refine ⟨w5, ?_, ?_, ?_, rfl⟩
  · rw [run_noguard_eq ids hg, hw5]
    simp [List.append_assoc]
  · rw [occCount_append_headFree h1ne
      (headFree_of_head? hnfrhead (not_mem_of_all_hex h1hex (by decide))),
      occCount_eq_zero_of_not_contains hv1,
      (occCount_ids_in_new_file_refs ids h1hex h1len h2hex h2len hne).1]
  · rw [occCount_append_headFree h2ne
      (headFree_of_head? hnfrhead (not_mem_of_all_hex h2hex (by decide))),
      occCount_eq_zero_of_not_contains hv2,
      (occCount_ids_in_new_file_refs ids h1hex h1len h2hex h2len hne).2]

/-- The sample manifest text before its file-reference table. -/
def c7u : List Char := "// !$*UTF8*$!\n/* Begin PBXBuildFile section */\n\t\t1111 /* App.swift in Sources */ = \x7bisa = PBXBuildFile; fileRef = 2222 /* App.swift */; \x7d;\n/* End PBXBuildFile section */\n".toList

/-- The body of the sample manifest file-reference table (between the
Begin and End markers). -/
def c7v : List Char := "\n\t\t2222 /* App.swift */ = \x7bisa = PBXFileReference; path = App.swift; \x7d;\n".toList

/-- The sample manifest text after its file-reference table. -/
def c7w : List Char := "\n/* Begin PBXGroup section */\n\t\t3333 /* Services */ = \x7b\n\t\t\tisa = PBXGroup;\n\t\t\tchildren = (\n\t\t\t\t2222 /* App.swift */,\n\t\t\t);\n\t\t\tpath = Services;\n\t\t\x7d;\n\t\t4444 /* FileScan */ = \x7b\n\t\t\tisa = PBXGroup;\n\t\t\tchildren = (\n\t\t\t);\n\t\t\tpath = FileScan;\n\t\t\x7d;\n/* End PBXGroup section */\n/* Begin PBXSourcesBuildPhase section */\n\t\t5555 /* Sources */ = \x7b\n\t\t\tisa = PBXSourcesBuildPhase;\n\t\t\tfiles = (\n\t\t\t\t1111 /* App.swift in Sources */,\n\t\t\t);\n\t\t\x7d;\n/* End PBXSourcesBuildPhase section */\n".toList

/-- Witness for C7 at the concrete sample manifest and identifiers. -/
theorem c7_linkage_and_uniqueness_witness :
    (sampleManifest = c7u ++ beginFileRefMarker ++ c7v ++ endFileRefMarker ++ c7w ∧
     containsSub guardMarker sampleManifest = false ∧
     pyFindNat endFileRefMarker sampleManifest =
       some ((c7u ++ beginFileRefMarker ++ c7v).length) ∧
     pyFindNat endBuildFileMarker (step1 sampleIds sampleManifest) = some 139 ∧
     139 ≤ c7u.length) ∧
    (∃ w5, (run sampleIds (some sampleManifest)).written =
        some (insAt c7u 139 (new_build_files sampleIds) ++ beginFileRefMarker ++
          (c7v ++ new_file_refs sampleIds) ++ endFileRefMarker ++ w5) ∧
      occCount sampleIds.perm_svc_file_ref (c7v ++ new_file_refs sampleIds) = 1 ∧
      occCount sampleIds.perm_denied_file_ref (c7v ++ new_file_refs sampleIds) = 1 ∧
      new_build_files sampleIds = nbf_s0 ++ sampleIds.perm_svc_build_file ++ nbf_s1 ++
        sampleIds.perm_svc_file_ref ++ nbf_s2 ++ sampleIds.perm_denied_build_file ++
        nbf_s3 ++ sampleIds.perm_denied_file_ref ++ nbf_s4) :=
  ⟨⟨by decide, by decide, by decide, by decide, by decide⟩,
    c7_linkage_and_uniqueness sampleIds sampleManifest c7u c7v c7w (by decide)
      (by decide) (by decide) (by decide) (by decide) (by decide) (by decide)
      (by decide) (by decide) (by decide) (by decide) (by decide)
      (by
        intro e he
        have hval : svcEnd (step2 sampleIds (step1 sampleIds sampleManifest)) =
            some 1126 := by decide
        rw [hval] at he
        injection he with he2
        rw [← he2]
        decide)
      (by
        intro e he
        have hval : fsEnd (stepServices sampleIds (step2 sampleIds
            (step1 sampleIds sampleManifest))) = some 1278 := by decide
        rw [hval] at he
        injection he with he2
        rw [← he2]
        decide)
      (by
        intro e he
        have hval : srcEnd (stepFileScan sampleIds (stepServices sampleIds
            (step2 sampleIds (step1 sampleIds sampleManifest)))) = some 1546 := by decide
        rw [hval] at he
        injection he with he2
        rw [← he2]
        decide)⟩

/-! ### C9: behaviour when the end-of-section markers are absent -/

/-- No occurrence of `pat` starts anywhere in `s`. -/
def NoOccIn (pat s : List Char) : Prop :=
  ∀ q, listStartsWith pat (s.drop q) = false

theorem noOccIn_of_not_contains {pat s : List Char}
    (h : containsSub pat s = false) : NoOccIn pat s := by
  have h2 := pyFindNat_none_of_not_contains h
  rw [pyFindNat] at h2
  exact fun q => pyFindAux_none h2 q

theorem containsSub_false_of_noOcc {pat s : List Char}
    (h : NoOccIn pat s) : containsSub pat s = false := by
  rw [containsSub]
  cases hf : pyFindNat pat s with
  | none => rfl
  | some p =>
    obtain ⟨_, hsw, _⟩ := pyFindNat_some hf
    rw [h p] at hsw
    cases hsw

theorem noOccIn_drop {pat s : List Char} (h : NoOccIn pat s) (P : Nat) :
    NoOccIn pat (s.drop P) := by
  intro q
  rw [List.drop_drop]
  exact h (P + q)

theorem sw_of_take {pat s : List Char} {m : Nat}
    (h : listStartsWith pat (s.take m) = true) : listStartsWith pat s = true := by
  obtain ⟨r, hr⟩ := listStartsWith_iff.mp h
  refine listStartsWith_iff.mpr ⟨r ++ s.drop m, ?_⟩
  rw [← List.append_assoc, ← hr, List.take_append_drop]

/-- A pattern whose first character is not an uppercase hexadecimal digit
cannot start inside an all-hex identifier. -/
theorem noOcc_hex_append {pat idc b : List Char} {h0 : Char}
    (hpat : pat.head? = some h0) (hh0 : h0 ∉ upperHexDigits)
    (hhex : ∀ c ∈ idc, c ∈ upperHexDigits) (hb : NoOccIn pat b) :
    NoOccIn pat (idc ++ b) := by
  intro q
  rcases le_or_lt idc.length q with hge | hlt
  · rw [drop_append_of_ge hge]
    exact hb _
  · rw [List.drop_append_of_le_length (Nat.le_of_lt hlt)]
    have hne : idc.drop q ≠ [] := by
      intro h
      have h2 := congrArg List.length h
      rw [List.length_drop] at h2
      simp only [List.length_nil] at h2
      omega
    obtain ⟨c0, r0, hc0⟩ := List.exists_cons_of_ne_nil hne
    cases pat with
    | nil => cases hpat
    | cons p0 pt =>
      have hp0 : p0 = h0 := by
        simpa using hpat
      have hc0hex : c0 ∈ upperHexDigits :=
        hhex c0 (List.drop_subset q idc (by rw [hc0]; exact List.mem_cons_self c0 r0))
      have hne2 : p0 ≠ c0 := by
        intro h
        apply hh0
        rw [← hp0, h]
        exact hc0hex
      have hbeq : (p0 == c0) = false := by
        simp [hne2]
      rw [hc0, List.cons_append]
      simp only [listStartsWith, hbeq, Bool.false_and]

/-- A pattern cannot start inside a template piece `t` when it does not occur
within `t` and no nonempty proper suffix of `t` is a prefix of the pattern. -/
theorem noOcc_template_append {pat t b : List Char}
    (hnt : containsSub pat t = false)
    (hsp : ∀ k, k < pat.length → 0 < k → t.drop (t.length - k) ≠ pat.take k)
    (hb : NoOccIn pat b) : NoOccIn pat (t ++ b) := by
  intro q
  rcases le_or_lt t.length q with hge | hlt
  · rw [drop_append_of_ge hge]
    exact hb _
  · rw [List.drop_append_of_le_length (Nat.le_of_lt hlt)]
    cases hsw : listStartsWith pat (t.drop q ++ b)
    · rfl
    · exfalso
      rcases le_or_lt pat.length (t.drop q).length with hle2 | hlt2
      · rw [listStartsWith_append_short b hle2] at hsw
        have hno := noOccIn_of_not_contains hnt q
        rw [hno] at hsw
        cases hsw
      · obtain ⟨hpe, _⟩ := listStartsWith_append_long hlt2 hsw
        have hk0 : 0 < (t.drop q).length := by
          rw [List.length_drop]
          omega
        have h2 := congrArg (List.take (t.drop q).length) hpe
        rw [List.take_left] at h2
        have hq_eq : t.length - (t.drop q).length = q := by
          rw [List.length_drop]
          omega
        exact hsp (t.drop q).length hlt2 hk0 (by rw [hq_eq, h2])

/-- An occurrence starting inside a prefix of scanned content either lies
wholly inside that content (impossible when the content is occurrence-free)
or runs into the appended text, whose first character it cannot match. -/
theorem noOcc_prefix_append {pat content b : List Char} {hd0 : Char} (P : Nat)
    (hc : NoOccIn pat content) (hbh : b.head? = some hd0) (hhd : hd0 ∉ pat)
    (hb : NoOccIn pat b) : NoOccIn pat (content.take P ++ b) := by
  intro q
  rcases le_or_lt (content.take P).length q with hge | hlt
  · rw [drop_append_of_ge hge]
    exact hb _
  · rw [List.drop_append_of_le_length (Nat.le_of_lt hlt)]
    cases hsw : listStartsWith pat ((content.take P).drop q ++ b)
    · rfl
    · exfalso
      rcases le_or_lt pat.length ((content.take P).drop q).length with hle2 | hlt2
      · rw [listStartsWith_append_short b hle2] at hsw
        have hdt : (content.take P).drop q = (content.drop q).take (P - q) :=
          List.drop_take P q content
        rw [hdt] at hsw
        have h3 := sw_of_take hsw
        rw [hc q] at h3
        cases h3
      · obtain ⟨_, hsw2⟩ := listStartsWith_append_long hlt2 hsw
        have hkne : pat.drop ((content.take P).drop q).length ≠ [] := by
          intro h
          have h2 := congrArg List.length h
          rw [List.length_drop] at h2
          simp only [List.length_nil] at h2
          omega
        obtain ⟨c0, r0, hc0⟩ := List.exists_cons_of_ne_nil hkne
        cases b with
        | nil => simp at hbh
        | cons bh bt =>
          simp only [List.head?_cons, Option.some.injEq] at hbh
          rw [hc0] at hsw2
          simp only [listStartsWith, Bool.and_eq_true, beq_iff_eq] at hsw2
          have hc0pat : c0 ∈ pat :=
            List.drop_subset _ pat (by rw [hc0]; exact List.mem_cons_self c0 r0)
          rw [hsw2.1, hbh] at hc0pat
          exact hhd hc0pat

/-- The two interpolated ids being hexadecimal, the spliced `new_file_refs`
fragment contains no occurrence of the build-file end marker. -/
theorem noOccIn_buildMarker_new_file_refs (ids : Ids)
    (h1hex : ∀ c ∈ ids.perm_svc_file_ref, c ∈ upperHexDigits)
    (h2hex : ∀ c ∈ ids.perm_denied_file_ref, c ∈ upperHexDigits) :
    NoOccIn endBuildFileMarker (new_file_refs ids) := by
  have hhead : endBuildFileMarker.head? = some '/' := by decide
  have hslash : '/' ∉ upperHexDigits := by decide
  have hshape : new_file_refs ids =
      nfr_t0 ++ (ids.perm_svc_file_ref ++
        (nfr_t1 ++ (ids.perm_denied_file_ref ++ nfr_t2))) := by
    rw [new_file_refs]
    simp [List.append_assoc]
  rw [hshape]
  refine noOcc_template_append (by decide) (by decide) ?_
  refine noOcc_hex_append hhead hslash h1hex ?_
  refine noOcc_template_append (by decide) (by decide) ?_
  refine noOcc_hex_append hhead hslash h2hex ?_
  exact noOccIn_of_not_contains (by decide)

/-- Splicing the file-reference entries cannot create an occurrence of the
build-file end marker: crossing occurrences would have to match the
fragment's first character (a tab, not in the marker) or end inside the
fragment's final template text (no suffix of which starts the marker), and
occurrences inside the fragment are ruled out by
`noOccIn_buildMarker_new_file_refs`. -/
theorem step1_preserves_buildMarker_absent (ids : Ids) (content : List Char)
    (h1hex : ∀ c ∈ ids.perm_svc_file_ref, c ∈ upperHexDigits)
    (h2hex : ∀ c ∈ ids.perm_denied_file_ref, c ∈ upperHexDigits)
    (hm : containsSub endBuildFileMarker content = false) :
    containsSub endBuildFileMarker (step1 ids content) = false := by
  have hc := noOccIn_of_not_contains hm
  apply containsSub_false_of_noOcc
  have hkey : ∀ P : Nat, NoOccIn endBuildFileMarker
      (content.take P ++ (new_file_refs ids ++ content.drop P)) := by
    intro P
    have hnfr := noOccIn_buildMarker_new_file_refs ids h1hex h2hex
    have hnfrhead : (new_file_refs ids).head? = some '\t' := by
      rw [new_file_refs]
      apply head?_append_of_head?
      apply head?_append_of_head?
      apply head?_append_of_head?
      apply head?_append_of_head?
      decide
    have hbhead : (new_file_refs ids ++ content.drop P).head? = some '\t' :=
      head?_append_of_head? hnfrhead
    have hsp : ∀ k, k < endBuildFileMarker.length → 0 < k →
        (new_file_refs ids).drop ((new_file_refs ids).length - k) ≠
          endBuildFileMarker.take k := by
      intro k hk hk0
      have hm2len : endBuildFileMarker.length = 30 := by decide
      have ht2len : 30 ≤ nfr_t2.length := by decide
      rw [new_file_refs]
      have hXlen : (nfr_t0 ++ ids.perm_svc_file_ref ++ nfr_t1 ++
          ids.perm_denied_file_ref ++ nfr_t2).length =
          (nfr_t0 ++ ids.perm_svc_file_ref ++ nfr_t1 ++
            ids.perm_denied_file_ref).length + nfr_t2.length :=
        List.length_append _ _
      have hge : (nfr_t0 ++ ids.perm_svc_file_ref ++ nfr_t1 ++
          ids.perm_denied_file_ref).length ≤
          (nfr_t0 ++ ids.perm_svc_file_ref ++ nfr_t1 ++
            ids.perm_denied_file_ref ++ nfr_t2).length - k := by
        rw [hXlen]
        omega
      rw [drop_append_of_ge hge]
      have hidx : (nfr_t0 ++ ids.perm_svc_file_ref ++ nfr_t1 ++
          ids.perm_denied_file_ref ++ nfr_t2).length - k -
          (nfr_t0 ++ ids.perm_svc_file_ref ++ nfr_t1 ++
            ids.perm_denied_file_ref).length = nfr_t2.length - k := by
        rw [hXlen]
        omega
      rw [hidx]
      exact (by decide : ∀ k2, k2 < endBuildFileMarker.length → 0 < k2 →
        nfr_t2.drop (nfr_t2.length - k2) ≠ endBuildFileMarker.take k2) k hk hk0
    exact noOcc_prefix_append P hc hbhead (by decide)
      (noOcc_template_append (containsSub_false_of_noOcc hnfr) hsp
        (noOccIn_drop hc P))
  have hstep : step1 ids content =
      content.take (pyAt content.length (pyFind endFileRefMarker content)) ++
        (new_file_refs ids ++
          content.drop (pyAt content.length (pyFind endFileRefMarker content))) := by
    rw [step1, spliceInt, insAt, List.append_assoc]
  rw [hstep]
  exact hkey _

/-- C9: the guard marker being absent, each end-of-section marker is handled
independently. If the file-reference end marker is absent from the manifest,
its substring search yields `-1` and the two file-reference entries are
spliced immediately before the final character of the current content;
respectively, if the build-file end marker is absent from the manifest, it is
still absent from the in-memory content its search actually scans (splicing
the file-reference entries cannot create an occurrence), so its search yields
`-1` and the two build-file entries are spliced immediately before the final
character of the current content. In either case the run does not warn, skip
or abort for these steps: the mutated content is still written back with exit
status 0. -/
theorem c9_markers_absent (ids : Ids) (content : List Char)
    (hg : containsSub guardMarker content = false)
    (h1hex : ∀ c ∈ ids.perm_svc_file_ref, c ∈ upperHexDigits)
    (h2hex : ∀ c ∈ ids.perm_denied_file_ref, c ∈ upperHexDigits) :
    (containsSub endFileRefMarker content = false →
      pyFind endFileRefMarker content = -1 ∧
      step1 ids content = insAt content (content.length - 1) (new_file_refs ids)) ∧
    (containsSub endBuildFileMarker content = false →
      containsSub endBuildFileMarker (step1 ids content) = false ∧
      pyFind endBuildFileMarker (step1 ids content) = -1 ∧
      step2 ids (step1 ids content) =
        insAt (step1 ids content) ((step1 ids content).length - 1)
          (new_build_files ids)) ∧
    (run ids (some content)).written =
      some (stepSources ids (stepFileScan ids (stepServices ids
        (step2 ids (step1 ids content))))) ∧
    (run ids (some content)).exitCode = 0 := by
  refine ⟨?_, ?_, ?_, ?_⟩
  · intro h1
    obtain ⟨hf1, hs1⟩ := spliceInt_absent (c := content) (t := new_file_refs ids)
      endFileRefMarker h1
    refine ⟨hf1, ?_⟩
    rw [step1]
    exact hs1
  · intro h2
    have h2c1 := step1_preserves_buildMarker_absent ids content h1hex h2hex h2
    obtain ⟨hf2, hs2⟩ := spliceInt_absent (c := step1 ids content)
      (t := new_build_files ids) endBuildFileMarker h2c1
    refine ⟨h2c1, hf2, ?_⟩
    conv_lhs => rw [step2]
    exact hs2
  · rw [run_noguard_eq ids hg]
  · rw [run_noguard_eq ids hg]

/-- Concrete marker-free content for the C9 witness. -/
def sampleNoMarkers : List Char := "x = 1;\n".toList

/-- Witness for C9 at a concrete marker-free content: the hypotheses hold
there, both per-marker antecedents hold, and each implication fires. -/
theorem c9_markers_absent_witness :
    (containsSub guardMarker sampleNoMarkers = false ∧
     (∀ c ∈ sampleIds.perm_svc_file_ref, c ∈ upperHexDigits) ∧
     (∀ c ∈ sampleIds.perm_denied_file_ref, c ∈ upperHexDigits) ∧
     containsSub endFileRefMarker sampleNoMarkers = false ∧
     containsSub endBuildFileMarker sampleNoMarkers = false) ∧
    ((containsSub endFileRefMarker sampleNoMarkers = false →
      pyFind endFileRefMarker sampleNoMarkers = -1 ∧
      step1 sampleIds sampleNoMarkers =
        insAt sampleNoMarkers (sampleNoMarkers.length - 1)
          (new_file_refs sampleIds)) ∧
    (containsSub endBuildFileMarker sampleNoMarkers = false →
      containsSub endBuildFileMarker (step1 sampleIds sampleNoMarkers) = false ∧
      pyFind endBuildFileMarker (step1 sampleIds sampleNoMarkers) = -1 ∧
      step2 sampleIds (step1 sampleIds sampleNoMarkers) =
        insAt (step1 sampleIds sampleNoMarkers)
          ((step1 sampleIds sampleNoMarkers).length - 1)
          (new_build_files sampleIds)) ∧
    (run sampleIds (some sampleNoMarkers)).written =
      some (stepSources sampleIds (stepFileScan sampleIds (stepServices sampleIds
        (step2 sampleIds (step1 sampleIds sampleNoMarkers))))) ∧
    (run sampleIds (some sampleNoMarkers)).exitCode = 0) :=
  ⟨⟨by decide, by decide, by decide, by decide, by decide⟩,
    c9_markers_absent sampleIds sampleNoMarkers (by decide) (by decide) (by decide)⟩

end Vivacity
